import Mathlib

/-!
Verification of the ThemeManager component of the compass-helpers library.

The definitions below are a shallow embedding of the current ThemeManager
class (src/unnamed/part_012, the stage that matches the committed
theme-manager.type.ts).  DOM state observable through the class
(the owned style sheet's rule list, the container's data-theme attribute)
is carried explicitly in a state record; event emission is recorded in a
ghost trace field (`events`); JavaScript exceptions become `Except` errors.
The legacy stage (src/unnamed/part_006) differs and is noted where relevant.
-/

namespace ThemeMgr

/-- A JavaScript value stored in a theme-variable map: the source type is
`Record<string, string | number>`, but `isValidThemeData` also has to reject
values of any other runtime type, represented by `other`.  JS numbers are
modelled as integers; no claim depends on fractional formatting. -/
inductive JSValue where
  | str (s : String)
  | num (n : Int)
  | other
deriving Repr, DecidableEq

/-- `ThemeVariables`: a JS object, modelled as an association list in
property-enumeration order (the claims' keys are CSS custom properties
such as `--x`, never integer-like, so enumeration order is insertion order). -/
abbrev ThemeVariables := List (String × JSValue)

/-- String interpolation `${value}` of a stored value. -/
def renderValue : JSValue → String
  | .str s => s
  | .num n => toString n
  | .other => "[object Object]"

/-- part_012 `convertToCSSData`: `Object.entries(data).map(([k,v]) =>
`k: v`).join(';')`. -/
def convertToCSSData (data : ThemeVariables) : String :=
  String.intercalate ";" (data.map (fun kv => kv.1 ++ ": " ++ renderValue kv.2))

/-- JS object spread `{...a, ...b}`: keys of `a` in order (with `b`'s value
winning on a shared key), then keys of `b` not in `a`, in `b`'s order. -/
def mergeVars (a b : ThemeVariables) : ThemeVariables :=
  a.map (fun kv => (kv.1, ((b.lookup kv.1).getD kv.2))) ++
    b.filter (fun kv => (a.lookup kv.1).isNone)

/-- The characters part_012's `isValidThemeName` rejects with the regex
matching any of: less-than, greater-than, double quote, single quote,
ampersand. -/
def unsafeNameChars : List Char :=
  [Char.ofNat 60, Char.ofNat 62, Char.ofNat 34, Char.ofNat 39, Char.ofNat 38]

/-- JS `s.trim().length > 0`: the string holds at least one non-whitespace
character.  (Written over the character list so the kernel can evaluate it;
`String.trim` itself does not reduce definitionally.) -/
def jsTrimNonempty (s : String) : Bool :=
  s.toList.any (fun c => !c.isWhitespace)

/-- part_012 `isValidThemeName`. -/
def isValidThemeName (themeName : String) : Bool :=
  jsTrimNonempty themeName && !(themeName.toList.any (fun c => unsafeNameChars.contains c))

/-- The `typeof value === 'string' || typeof value === 'number'` test. -/
def isValidValue : JSValue → Bool
  | .str _ => true
  | .num _ => true
  | .other => false

/-- part_012 `isValidThemeData` (the data container is a mapping by
construction here, so only the per-entry checks remain). -/
def isValidThemeData (themeData : ThemeVariables) : Bool :=
  themeData.all (fun kv => jsTrimNonempty kv.1 && isValidValue kv.2)

/-- `TMThemeConfig` from theme-manager.type.ts: the style-sheet rule index
and the stored (unmerged) theme data. -/
structure TMThemeConfig where
  index : Nat
  data : ThemeVariables
deriving Repr, DecidableEq

/-- The OS color-scheme preference. -/
inductive SysTheme where
  | light
  | dark
deriving Repr, DecidableEq

/-- The string the source compares against (`this.systemTheme`). -/
def sysThemeName : SysTheme → String
  | .light => "light"
  | .dark => "dark"

/-- The four event kinds of `ThemeManagerEvents`. -/
inductive TMEventType where
  | themeChange
  | systemThemeChange
  | themeRegister
  | themeUnregister
deriving Repr, DecidableEq

/-- An emitted event with its arguments, recorded in the ghost trace. -/
inductive TMEvent where
  | themeChange (themeName : Option String) (themeData : Option ThemeVariables)
  | systemThemeChange (systemTheme : SysTheme)
  | themeRegister (themeName : String) (themeData : ThemeVariables)
  | themeUnregister (themeName : String)
deriving Repr, DecidableEq

/-- The errors `throw new Error(...)` raises in part_012, told apart by
their message. `fuelExhausted` is an artifact of the bounded modelling of
the `register`/`applyDefaultTheme` mutual recursion; it is unreachable from
states satisfying the class invariant. -/
inductive TMError where
  | destroyed
  | invalidThemeName (themeName : String)
  | invalidThemeData (themeName : String)
  | unknownTheme (themeName : String)
  | fuelExhausted
deriving Repr, DecidableEq

/-- The whole observable state of one ThemeManager instance.
`styleSheet` is the owned sheet's `cssRules` as rule texts; `attr` is the
container's `data-theme` attribute (`none` = absent); `listeners` maps an
event type to the set of subscribed listeners (as ids, set semantics);
`events` is the ghost trace of emitted events. -/
structure TMState where
  baseVariables : ThemeVariables
  disableFollowSystemTheme : Bool
  themeMap : List (String × TMThemeConfig)
  styleSheet : List String
  attr : Option String
  systemTheme : SysTheme
  isDestroyed : Bool
  listeners : List (TMEventType × List Nat)
  events : List TMEvent
deriving Repr, DecidableEq

/-- `themeMap.has`. -/
def mapHas (m : List (String × TMThemeConfig)) (n : String) : Bool :=
  (m.lookup n).isSome

/-- `themeMap.set`: JS `Map.set` keeps an existing key's position. -/
def mapSet (m : List (String × TMThemeConfig)) (n : String) (c : TMThemeConfig) :
    List (String × TMThemeConfig) :=
  if mapHas m n then m.map (fun e => if e.1 = n then (n, c) else e) else m ++ [(n, c)]

/-- `themeMap.delete`. -/
def mapDelete (m : List (String × TMThemeConfig)) (n : String) :
    List (String × TMThemeConfig) :=
  m.eraseP (fun e => e.1 == n)

/-- `config.index = newIndex` for the entry named `n` (the rebuild loop
mutates the config object held in the map). -/
def setRuleIndex (m : List (String × TMThemeConfig)) (n : String) (i : Nat) :
    List (String × TMThemeConfig) :=
  m.map (fun e => if e.1 = n then (e.1, ⟨i, e.2.data⟩) else e)

/-- The one CSS rule compiled for a theme:
`[data-theme="name"] {merged-declarations}`. -/
def themeRuleText (themeName : String) (merged : ThemeVariables) : String :=
  "[data-theme=\"" ++ themeName ++ "\"] \x7b" ++ convertToCSSData merged ++ "\x7d"

/-- Record an emitted event in the ghost trace (part_012 `emit`; delivery to
listener callbacks, with its per-listener try/catch, is modelled separately
by `emitToListeners`). -/
def emitEvent (s : TMState) (ev : TMEvent) : TMState :=
  { s with events := s.events ++ [ev] }

/-- JS truthiness of a `string | null`: `null` and the empty string are falsy. -/
def jsFalsyStr : Option String → Bool
  | none => true
  | some t => t = ""

/-- part_012 `getCurrentTheme`: checkDestroyed, then read the live attribute. -/
def getCurrentTheme (s : TMState) : Except TMError (Option String) :=
  if s.isDestroyed then .error .destroyed else .ok s.attr

/-- part_012 `getThemeData`: `themeName || getCurrentTheme()` (the empty
string is falsy), `null` when unresolved, else the base-merged data. -/
def getThemeData (s : TMState) (themeName : Option String) :
    Except TMError (Option ThemeVariables) :=
  if s.isDestroyed then .error .destroyed
  else
    let name : Option String :=
      match themeName with
      | some n => if n = "" then s.attr else some n
      | none => s.attr
    match name with
    | none => .ok none
    | some n =>
      if n = "" then .ok none
      else
        match s.themeMap.lookup n with
        | none => .ok none
        | some config => .ok (some (mergeVars s.baseVariables config.data))

/-- The `else` branch of part_012 `toggle`: remove the attribute and emit
`themeChange(null, null)`. -/
def toggleClear (s : TMState) : TMState :=
  emitEvent { s with attr := none } (.themeChange none none)

/-- part_012 `toggle`. A `some ""` argument is falsy in JS and takes the
clearing branch. -/
def toggle (s : TMState) (themeName : Option String) : Except TMError TMState :=
  if s.isDestroyed then .error .destroyed
  else
    match themeName with
    | some n =>
      if n = "" then .ok (toggleClear s)
      else if !isValidThemeName n then .error (.invalidThemeName n)
      else
        match s.themeMap.lookup n with
        | none => .error (.unknownTheme n)
        | some config =>
          let s1 := { s with attr := some n }
          .ok (emitEvent s1 (.themeChange (some n)
            (some (mergeVars s1.baseVariables config.data))))
    | none => .ok (toggleClear s)

/-- One iteration of the part_012 `rebuildRuleIndexes` loop: insert the
theme's recompiled rule at the end of the sheet and store the returned
index into that theme's config. -/
def rebuildStep (st : TMState) (entry : String × TMThemeConfig) : TMState :=
  let merged := mergeVars st.baseVariables entry.2.data
  let newIndex := st.styleSheet.length
  { st with
    styleSheet := st.styleSheet ++ [themeRuleText entry.1 merged],
    themeMap := setRuleIndex st.themeMap entry.1 newIndex }

/-- part_012 `rebuildRuleIndexes`: snapshot the entries, clear every rule,
re-insert each theme's rule and update its stored index. -/
def rebuildRuleIndexes (s : TMState) : TMState :=
  s.themeMap.foldl rebuildStep { s with styleSheet := [] }

/-- part_012 `unregister`.  The try block catches a `deleteRule` failure
(index out of range) and logs it without touching the state; all other
statements in the block cannot throw on a live instance. -/
def unregister (s : TMState) (themeName : String) : Except TMError TMState :=
  if s.isDestroyed then .error .destroyed
  else
    match s.themeMap.lookup themeName with
    | none => .ok s
    | some config =>
      if config.index < s.styleSheet.length then
        let s1 := { s with
          styleSheet := s.styleSheet.eraseIdx config.index,
          themeMap := mapDelete s.themeMap themeName }
        let s2 := rebuildRuleIndexes s1
        let s3 := emitEvent s2 (.themeUnregister themeName)
        if s3.attr = some themeName then .ok (toggleClear s3) else .ok s3
      else .ok s

/-- The mutation part_012 `register` performs once validation and the
replace-unregister are done: compile the merged rule, append it, store the
unmerged data with the returned rule index, and emit `themeRegister` with
the raw (unmerged) data. -/
def registerCore (s : TMState) (themeName : String) (themeData : ThemeVariables) :
    TMState :=
  let merged := mergeVars s.baseVariables themeData
  let index := s.styleSheet.length
  let s1 := { s with
    styleSheet := s.styleSheet ++ [themeRuleText themeName merged],
    themeMap := mapSet s.themeMap themeName ⟨index, themeData⟩ }
  emitEvent s1 (.themeRegister themeName themeData)

/-- The two mutually recursive private/public methods of part_012:
`register` calls `applyDefaultTheme` (when the registered name is the
active theme) and `applyDefaultTheme` calls `register` (to refresh the
synthetic `default` theme). -/
inductive TMCall where
  | callRegister (s : TMState) (themeName : String) (themeData : ThemeVariables)
  | callApplyDefaultTheme (s : TMState)

/-- The bodies of part_012 `register` and `applyDefaultTheme`, as one
fuelled function (their mutual recursion has depth at most three from any
state, so a fixed fuel makes the pair total without changing any reachable
behaviour; `fuelExhausted` is unreachable from invariant-satisfying
states).  The `callRegister` branch is `register`: checkDestroyed, validate
name and data, unregister an existing registration of the same name,
perform the insert/store/emit (`registerCore`), and re-apply the default
theme when the registered name is the currently applied theme.  The
`callApplyDefaultTheme` branch is `applyDefaultTheme`: unless disabled,
when no theme (or `default`) is active and a theme named after the current
system theme exists, replace `default` with that theme's merged data and
toggle to it. -/
def runThemeCall : Nat → TMCall → Except TMError TMState
  | 0, _ => .error .fuelExhausted
  | fuel + 1, .callRegister s themeName themeData =>
    if s.isDestroyed then .error .destroyed
    else if !isValidThemeName themeName then .error (.invalidThemeName themeName)
    else if !isValidThemeData themeData then .error (.invalidThemeData themeName)
    else
      match (if mapHas s.themeMap themeName then unregister s themeName else .ok s) with
      | .error e => .error e
      | .ok s1 =>
        let s2 := registerCore s1 themeName themeData
        if s2.attr = some themeName then
          runThemeCall fuel (.callApplyDefaultTheme s2)
        else .ok s2
  | fuel + 1, .callApplyDefaultTheme s =>
    if s.disableFollowSystemTheme then .ok s
    else
      match getCurrentTheme s with
      | .error e => .error e
      | .ok currentTheme =>
        if jsFalsyStr currentTheme || currentTheme = some "default" then
          match getThemeData s (some (sysThemeName s.systemTheme)) with
          | .error e => .error e
          | .ok none => .ok s
          | .ok (some systemThemeData) =>
            match unregister s "default" with
            | .error e => .error e
            | .ok s1 =>
              match runThemeCall fuel (.callRegister s1 "default" systemThemeData) with
              | .error e => .error e
              | .ok s2 => toggle s2 (some "default")
        else .ok s

/-- Fuel large enough for every reachable (and every invariant-satisfying)
call chain; see `runThemeCall`. -/
def themeFuel : Nat := 12

/-- part_012 `register`. -/
def register (s : TMState) (themeName : String) (themeData : ThemeVariables) :
    Except TMError TMState :=
  runThemeCall themeFuel (.callRegister s themeName themeData)

/-- part_012 `applyDefaultTheme`. -/
def applyDefaultTheme (s : TMState) : Except TMError TMState :=
  runThemeCall themeFuel (.callApplyDefaultTheme s)

/-- part_012 `registerBatch`: checkDestroyed, then `register` each entry in
enumeration order; an exception thrown by one `register` propagates and
aborts the remaining entries, exactly as the `forEach` does. -/
def registerBatch (s : TMState) (themes : List (String × ThemeVariables)) :
    Except TMError TMState :=
  if s.isDestroyed then .error .destroyed
  else themes.foldlM (fun st e => register st e.1 e.2) s

/-- part_012 `cloneTheme`: reads the source theme's stored (unmerged) data,
shallow-merges the overrides on top and registers the result. -/
def cloneTheme (s : TMState) (sourceName targetName : String)
    (overrides : ThemeVariables) : Except TMError TMState :=
  if s.isDestroyed then .error .destroyed
  else
    match s.themeMap.lookup sourceName with
    | none => .error (.unknownTheme sourceName)
    | some config => register s targetName (mergeVars config.data overrides)

/-- part_012 `updateBaseVariables`: shallow-merge the patch into the stored
base variables, then rebuild every rule. -/
def updateBaseVariables (s : TMState) (baseVariables : ThemeVariables) :
    Except TMError TMState :=
  if s.isDestroyed then .error .destroyed
  else
    .ok (rebuildRuleIndexes
      { s with baseVariables := mergeVars s.baseVariables baseVariables })

/-- `ThemeInfo` returned by `getAllThemes`. -/
structure ThemeInfo where
  name : String
  data : ThemeVariables
  isActive : Bool
deriving Repr, DecidableEq

/-- part_012 `getAllThemes`. -/
def getAllThemes (s : TMState) : Except TMError (List ThemeInfo) :=
  if s.isDestroyed then .error .destroyed
  else
    .ok (s.themeMap.map (fun e =>
      { name := e.1,
        data := mergeVars s.baseVariables e.2.data,
        isActive := s.attr == some e.1 }))

/-- part_012 `hasTheme`. -/
def hasTheme (s : TMState) (themeName : String) : Except TMError Bool :=
  if s.isDestroyed then .error .destroyed else .ok (mapHas s.themeMap themeName)

/-- part_012 `getThemeNames`. -/
def getThemeNames (s : TMState) : Except TMError (List String) :=
  if s.isDestroyed then .error .destroyed else .ok (s.themeMap.map Prod.fst)

/-- part_012 `on`: listener sets have JS `Set` semantics (adding a present
listener is a no-op). -/
def onEvent (s : TMState) (event : TMEventType) (listener : Nat) :
    Except TMError TMState :=
  if s.isDestroyed then .error .destroyed
  else
    let cur := (s.listeners.lookup event).getD []
    let updated := if cur.contains listener then cur else cur ++ [listener]
    let rest := s.listeners.filter (fun e => !(e.1 == event))
    .ok { s with listeners := rest ++ [(event, updated)] }

/-- part_012 `off`. -/
def offEvent (s : TMState) (event : TMEventType) (listener : Nat) :
    Except TMError TMState :=
  if s.isDestroyed then .error .destroyed
  else
    match s.listeners.lookup event with
    | none => .ok s
    | some cur =>
      let rest := s.listeners.filter (fun e => !(e.1 == event))
      .ok { s with listeners := rest ++ [(event, cur.filter (fun l => !(l == listener)))] }

/-- part_012 `clearListeners`. -/
def clearListeners (s : TMState) (event : Option TMEventType) :
    Except TMError TMState :=
  if s.isDestroyed then .error .destroyed
  else
    match event with
    | some ev => .ok { s with listeners := s.listeners.filter (fun e => !(e.1 == ev)) }
    | none => .ok { s with listeners := [] }

/-- part_012 `destroy`: a second call returns at once; otherwise the media
listener is removed, the registry and listeners cleared, the style element
detached, the attribute removed, and the instance marked destroyed.  The
body cannot throw. -/
def destroy (s : TMState) : TMState :=
  if s.isDestroyed then s
  else { s with themeMap := [], attr := none, listeners := [], isDestroyed := true }

/-- The record part_012 `getStatus` returns. -/
structure TMStatus where
  isDestroyed : Bool
  registeredThemes : Nat
  currentTheme : Option String
  systemTheme : SysTheme
  followSystemTheme : Bool
  eventListeners : Nat
deriving Repr, DecidableEq

/-- part_012 `getStatus`: the one public method without a `checkDestroyed`
guard — it reads the destroyed flag instead and cannot throw. -/
def getStatus (s : TMState) : Except TMError TMStatus :=
  .ok { isDestroyed := s.isDestroyed,
        registeredThemes := s.themeMap.length,
        currentTheme := if s.isDestroyed then none else s.attr,
        systemTheme := s.systemTheme,
        followSystemTheme := !s.disableFollowSystemTheme,
        eventListeners := (s.listeners.map (fun e => e.2.length)).sum }

/-- part_012 `handleSystemThemeChange`: update the cached system theme from
the media-query event, re-apply the default theme, emit
`systemThemeChange`. -/
def handleSystemThemeChange (s : TMState) (lightMatches : Bool) :
    Except TMError TMState :=
  let newSystemTheme : SysTheme := if lightMatches then .light else .dark
  let s1 := { s with systemTheme := newSystemTheme }
  match applyDefaultTheme s1 with
  | .error e => .error e
  | .ok s2 => .ok (emitEvent s2 (.systemThemeChange newSystemTheme))

/-- The recognised constructor options (root resolution and the no-DOM
failure are outside the model: the claims all start from a resolved,
fresh container). -/
structure TMOptions where
  baseVariables : ThemeVariables
  disableFollowSystemTheme : Bool
deriving Repr, DecidableEq

/-- The instance state right after the constructor's field initialisation,
before the constructor's `applyDefaultTheme` call: fresh empty sheet, empty
registry, no `data-theme` attribute on the container, system theme from the
`(prefers-color-scheme: light)` match. -/
def initialState (opts : TMOptions) (lightMatches : Bool) : TMState :=
  { baseVariables := opts.baseVariables,
    disableFollowSystemTheme := opts.disableFollowSystemTheme,
    themeMap := [],
    styleSheet := [],
    attr := none,
    systemTheme := if lightMatches then .light else .dark,
    isDestroyed := false,
    listeners := [],
    events := [] }

/-- The part_012 constructor on a capable environment: initialise, then
apply the initial follow-system theme. -/
def mkThemeManager (opts : TMOptions) (lightMatches : Bool) : Except TMError TMState :=
  applyDefaultTheme (initialState opts lightMatches)

/-! ### The public operations as one step relation -/

/-- One public call on a ThemeManager instance (plus the internal
media-query callback `systemThemeChange`, which is not a public method but
also mutates the state). -/
inductive Op where
  | register (themeName : String) (themeData : ThemeVariables)
  | registerBatch (themes : List (String × ThemeVariables))
  | unregister (themeName : String)
  | toggle (themeName : Option String)
  | getCurrentTheme
  | getThemeData (themeName : Option String)
  | getAllThemes
  | hasTheme (themeName : String)
  | getThemeNames
  | cloneTheme (sourceName targetName : String) (overrides : ThemeVariables)
  | onEvent (event : TMEventType) (listener : Nat)
  | offEvent (event : TMEventType) (listener : Nat)
  | clearListeners (event : Option TMEventType)
  | updateBaseVariables (baseVariables : ThemeVariables)
  | getStatus
  | destroy
  | systemThemeChange (lightMatches : Bool)
deriving Repr, DecidableEq

/-- Run one operation; a read-only call leaves the state unchanged on
success and its error (if any) is surfaced the same way. -/
def applyOp (s : TMState) : Op → Except TMError TMState
  | .register n d => register s n d
  | .registerBatch l => registerBatch s l
  | .unregister n => unregister s n
  | .toggle n => toggle s n
  | .getCurrentTheme => (getCurrentTheme s).map (fun _ => s)
  | .getThemeData n => (getThemeData s n).map (fun _ => s)
  | .getAllThemes => (getAllThemes s).map (fun _ => s)
  | .hasTheme n => (hasTheme s n).map (fun _ => s)
  | .getThemeNames => (getThemeNames s).map (fun _ => s)
  | .cloneTheme src tgt ov => cloneTheme s src tgt ov
  | .onEvent e l => onEvent s e l
  | .offEvent e l => offEvent s e l
  | .clearListeners e => clearListeners s e
  | .updateBaseVariables p => updateBaseVariables s p
  | .getStatus => (getStatus s).map (fun _ => s)
  | .destroy => .ok (destroy s)
  | .systemThemeChange m => handleSystemThemeChange s m

/-- Whether an operation's method body starts with `checkDestroyed`
(everything public except `destroy` and `getStatus`; the media-query
callback is not a public method and is unsubscribed by `destroy`). -/
def opChecksDestroyed : Op → Bool
  | .destroy => false
  | .getStatus => false
  | .systemThemeChange _ => false
  | _ => true

/-! ### The registry/style-sheet invariant -/

/-- The rule list a consistent sheet must hold: one compiled rule per
registered theme, in registry order, each rendered from the current base
variables merged with that theme's stored data. -/
def ruleListFor (base : ThemeVariables) (m : List (String × TMThemeConfig)) :
    List String :=
  m.map (fun e => themeRuleText e.1 (mergeVars base e.2.data))

/-- Every stored `index` equals its entry's position, counting from `k`. -/
def indicesAlignedFrom (k : Nat) : List (String × TMThemeConfig) → Bool
  | [] => true
  | e :: rest => (e.2.index == k) && indicesAlignedFrom (k + 1) rest

/-- The `data-theme` attribute names a registered theme when present. -/
def attrRegistered (s : TMState) : Bool :=
  match s.attr with
  | none => true
  | some n => mapHas s.themeMap n

/-- The class invariant of a live instance: the owned sheet holds exactly
the one compiled rule per registered theme (in registry order), every
record's `index` is the position of its own rule, the active attribute
names a registered theme, and registry keys are unique. -/
def Inv (s : TMState) : Prop :=
  s.isDestroyed = false →
    (s.styleSheet = ruleListFor s.baseVariables s.themeMap ∧
     indicesAlignedFrom 0 s.themeMap = true ∧
     attrRegistered s = true ∧
     (s.themeMap.map Prod.fst).Nodup)

/-- What `rebuildRuleIndexes` produces on the registry: the same entries in
order, the `i`-th one's index set to `k + i`. -/
def reindexFrom (k : Nat) : List (String × TMThemeConfig) → List (String × TMThemeConfig)
  | [] => []
  | e :: rest => (e.1, ⟨k, e.2.data⟩) :: reindexFrom (k + 1) rest

/-! ### Listener delivery (part_012 `emit`, part_006 `afterToggle`) -/

/-- A subscribed listener callback, abstracted to its identity and whether
invoking it raises an exception. -/
structure TMListener where
  id : Nat
  throws : Bool
deriving Repr, DecidableEq

/-- Calling one listener callback: it either returns or raises. -/
def invokeListener (l : TMListener) : Except Unit Unit :=
  if l.throws then .error () else .ok ()

/-- What one emission did: which listeners were invoked (in order) and
which raised (and were logged by the catch block). -/
structure EmitTrace where
  invoked : List Nat
  logged : List Nat
deriving Repr, DecidableEq

/-- part_012 `emit`'s delivery loop:
`listeners.forEach(l => { try { l(...args) } catch (e) { console.error(...) } })`.
The function is total: no listener exception escapes to the emitter. -/
def emitToListeners (listeners : List TMListener) : EmitTrace :=
  listeners.foldl
    (fun tr l =>
      match invokeListener l with
      | .ok _ => { tr with invoked := tr.invoked ++ [l.id] }
      | .error _ => { invoked := tr.invoked ++ [l.id], logged := tr.logged ++ [l.id] })
    { invoked := [], logged := [] }

/-- The legacy stage's hook call site (part_006 `toggle`):
`try { hooks?.afterToggle?.(...) } catch (e) { console.error(e) }`.
A raising hook is caught; the call site always completes normally. -/
def afterToggleGuarded (hookThrows : Bool) : Except Unit Unit :=
  match (if hookThrows then Except.error () else Except.ok ()) with
  | .ok u => .ok u
  | .error _ => .ok ()

/-! ### The spec-side sequential registration (for the refinement claim) -/

/-- Written from the spec's words, for comparison with `registerBatch`:
call `register(name, data)` sequentially for each entry of `themes` in
enumeration order (an exception aborts the remaining calls, as it would
for a caller issuing the calls one by one). -/
def registerSequentially (s : TMState) (themes : List (String × ThemeVariables)) :
    Except TMError TMState :=
  themes.foldlM (fun st e => register st e.1 e.2) s

/-! ### Concrete instances used by witnesses and counterexamples -/

/-- Unwrap a successful result (the fallback is never reached in the
concrete computations below, all of which succeed). -/
def exceptState (x : Except TMError TMState) (fallback : TMState) : TMState :=
  match x with
  | .ok s => s
  | .error _ => fallback

/-- Project a `getThemeData` result onto one variable, for stating
counterexamples about a single key. -/
def themeVarLookup (r : Except TMError (Option ThemeVariables)) (k : String) :
    Option JSValue :=
  match r with
  | .ok (some d) => d.lookup k
  | _ => none

/-- A manager built with base `--font: sans`, system following disabled. -/
def c1Start : TMState :=
  initialState ⟨[("--font", JSValue.str "sans")], true⟩ true

/-- `c1Start` after `register('light', {'--bg': '#fff'})`. -/
def c1After : TMState :=
  exceptState (register c1Start "light" [("--bg", JSValue.str "#fff")]) c1Start

/-- A fresh manager with no base variables, system following disabled. -/
def c2Start : TMState :=
  initialState ⟨[], true⟩ true

/-- `c2Start` after `register('a', {'--p': '1'})`. -/
def c2Mid : TMState :=
  exceptState (register c2Start "a" [("--p", JSValue.str "1")]) c2Start

/-- `c2Mid` after `register('a', {'--p': '3'})` (same name, new data). -/
def c2After : TMState :=
  exceptState (register c2Mid "a" [("--p", JSValue.str "3")]) c2Mid

/-- A fresh manager, then `register('dark', {'--x': '2'})`. -/
def c3Mid : TMState :=
  exceptState (register c2Start "dark" [("--x", JSValue.str "2")]) c2Start

/-- `c3Mid` after `updateBaseVariables({'--x': '1'})`. -/
def c3After : TMState :=
  exceptState (updateBaseVariables c3Mid [("--x", JSValue.str "1")]) c3Mid

/-- A fresh manager that follows the system theme, constructed while the
system theme is `light`. -/
def c4Start : TMState :=
  exceptState (mkThemeManager ⟨[], false⟩ true) (initialState ⟨[], false⟩ true)

/-- `c4Start` after `register('light', {'--bg': '#fff'})` — a theme named
exactly like the current system theme, registered while no theme is
active. -/
def c4Reg : TMState :=
  exceptState (register c4Start "light" [("--bg", JSValue.str "#fff")]) c4Start

/-- `c2Mid` (theme `a` registered) after `toggle('a')`. -/
def c5Active : TMState :=
  exceptState (toggle c2Mid (some "a")) c2Mid

/-- The C9 scenario's state after constructing with
`baseVariables: {'--font': 'sans'}`, registering `light` and `dark`, and
toggling to `dark`; parameterised by the OS preference at construction. -/
def c9State (lightMatches : Bool) : Except TMError TMState := do
  let s0 ← mkThemeManager ⟨[("--font", JSValue.str "sans")], false⟩ lightMatches
  let s1 ← register s0 "light" [("--bg", JSValue.str "#fff")]
  let s2 ← register s1 "dark" [("--bg", JSValue.str "#000")]
  toggle s2 (some "dark")

/-- `getThemeData()` (no argument) in the C9 scenario. -/
def c9Data (lightMatches : Bool) : Except TMError (Option ThemeVariables) :=
  (c9State lightMatches).bind (fun s => getThemeData s none)

/-- `getCurrentTheme()` after the final `toggle()` in the C9 scenario. -/
def c9Final (lightMatches : Bool) : Except TMError (Option String) :=
  (c9State lightMatches).bind (fun s =>
    (toggle s none).bind (fun s2 => getCurrentTheme s2))

/-- What holds of the intermediate state `s1` reached by part_012 `register`
after the replace-unregister step (`if (themeMap.has(name)) unregister(name)`)
on a live, invariant-satisfying state. -/
structure PreState (s : TMState) (n : String) (s1 : TMState) : Prop where
  destroyed : s1.isDestroyed = false
  base : s1.baseVariables = s.baseVariables
  disable : s1.disableFollowSystemTheme = s.disableFollowSystemTheme
  system : s1.systemTheme = s.systemTheme
  listenersEq : s1.listeners = s.listeners
  hasN : mapHas s1.themeMap n = false
  attrN : ¬(s1.attr = some n)
  sheet : s1.styleSheet = ruleListFor s1.baseVariables s1.themeMap
  aligned : indicesAlignedFrom 0 s1.themeMap = true
  attrReg : attrRegistered s1 = true
  nodup : (s1.themeMap.map Prod.fst).Nodup
  len : s1.themeMap.length =
    (if mapHas s.themeMap n then s.themeMap.length - 1 else s.themeMap.length)
  lookupNe : ∀ k, ¬(k = n) →
    (s1.themeMap.lookup k).map TMThemeConfig.data =
      (s.themeMap.lookup k).map TMThemeConfig.data
  attrCase : s1.attr = s.attr ∨ (s.attr = some n ∧ s1.attr = none)
  eventsExt : ∃ tail, s1.events = s.events ++ tail

/-- The class invariant is decidable, so witnesses can establish it on
concrete states by evaluation. -/
instance decidableInv (s : TMState) : Decidable (Inv s) := by
  unfold Inv
  infer_instance

end ThemeMgr

deriving instance DecidableEq for Except

namespace ThemeMgr

/-! ## Association-list lemmas -/

theorem lookup_append_some {β : Type} {l1 : List (String × β)} (l2 : List (String × β))
    {k : String} {v : β} (h : l1.lookup k = some v) :
    (l1 ++ l2).lookup k = some v := by
  induction l1 with
  | nil => simp [List.lookup] at h
  | cons e rest ih =>
    obtain ⟨a, b⟩ := e
    rw [List.lookup_cons] at h
    cases hka : (k == a) with
    | true =>
      simp only [hka] at h
      simp [List.lookup_cons, hka, h]
    | false =>
      simp only [hka] at h
      simp [List.lookup_cons, hka, ih h]

theorem lookup_append_none {β : Type} {l1 : List (String × β)} (l2 : List (String × β))
    {k : String} (h : l1.lookup k = none) :
    (l1 ++ l2).lookup k = l2.lookup k := by
  induction l1 with
  | nil => simp
  | cons e rest ih =>
    obtain ⟨a, b⟩ := e
    rw [List.lookup_cons] at h
    rw [List.cons_append, List.lookup_cons]
    cases hka : (k == a) with
    | true =>
      simp only [hka] at h
      simp at h
    | false =>
      simp only [hka] at h
      simp [hka, ih h]

theorem lookup_eq_none_of_not_mem {β : Type} {l : List (String × β)} {k : String}
    (h : k ∉ l.map Prod.fst) : l.lookup k = none := by
  induction l with
  | nil => rfl
  | cons e rest ih =>
    obtain ⟨a, b⟩ := e
    simp only [List.map_cons, List.mem_cons] at h
    push_neg at h
    rw [List.lookup_cons]
    have hka : (k == a) = false := by
      simp [h.1]
    rw [hka]
    exact ih h.2

theorem mem_of_lookup_some {β : Type} {l : List (String × β)} {k : String} {v : β}
    (h : l.lookup k = some v) : (k, v) ∈ l := by
  induction l with
  | nil => simp [List.lookup] at h
  | cons e rest ih =>
    obtain ⟨a, b⟩ := e
    rw [List.lookup_cons] at h
    cases hka : (k == a) with
    | true =>
      simp only [hka] at h
      simp only [Option.some.injEq] at h
      have : k = a := by simpa using hka
      simp [this, h]
    | false =>
      simp only [hka] at h
      exact List.mem_cons_of_mem _ (ih h)

theorem mem_keys_of_lookup_some {β : Type} {l : List (String × β)} {k : String} {v : β}
    (h : l.lookup k = some v) : k ∈ l.map Prod.fst := by
  have := mem_of_lookup_some h
  exact List.mem_map_of_mem Prod.fst this

theorem lookup_of_mem_nodup {β : Type} {l : List (String × β)} {k : String} {v : β}
    (hnd : (l.map Prod.fst).Nodup) (h : (k, v) ∈ l) : l.lookup k = some v := by
  induction l with
  | nil => simp at h
  | cons e rest ih =>
    obtain ⟨a, b⟩ := e
    simp only [List.map_cons, List.nodup_cons] at hnd
    rcases List.mem_cons.mp h with heq | hmem
    · obtain ⟨h1, h2⟩ := Prod.mk.injEq .. ▸ heq
      subst h1; subst h2
      simp [List.lookup_cons]
    · have hka : (k == a) = false := by
        have : k ∈ rest.map Prod.fst := List.mem_map_of_mem Prod.fst hmem
        have hne : ¬(k = a) := fun hk => hnd.1 (hk ▸ this)
        simp [hne]
      rw [List.lookup_cons, hka]
      exact ih hnd.2 hmem

theorem lookup_isSome_false_iff {β : Type} {l : List (String × β)} {k : String} :
    (l.lookup k).isSome = false ↔ l.lookup k = none := by
  cases h : l.lookup k <;> simp

/-! ## mergeVars lemmas -/

theorem lookup_merge_left {a b : ThemeVariables} {k : String} {v : JSValue}
    (h : a.lookup k = some v) :
    (a.map (fun kv => (kv.1, ((b.lookup kv.1).getD kv.2)))).lookup k =
      some ((b.lookup k).getD v) := by
  induction a with
  | nil => simp [List.lookup] at h
  | cons e rest ih =>
    obtain ⟨x, y⟩ := e
    rw [List.lookup_cons] at h
    cases hkx : (k == x) with
    | true =>
      simp only [hkx] at h
      simp only [Option.some.injEq] at h
      have hk : k = x := by simpa using hkx
      simp [List.lookup_cons, ← hk, ← h]
    | false =>
      simp only [hkx] at h
      simpa [List.lookup_cons, hkx] using ih h

theorem lookup_merge_left_none {a b : ThemeVariables} {k : String}
    (h : a.lookup k = none) :
    (a.map (fun kv => (kv.1, ((b.lookup kv.1).getD kv.2)))).lookup k = none := by
  induction a with
  | nil => rfl
  | cons e rest ih =>
    obtain ⟨x, y⟩ := e
    rw [List.lookup_cons] at h
    rw [List.map_cons, List.lookup_cons]
    cases hkx : (k == x) with
    | true =>
      simp only [hkx] at h
      simp at h
    | false =>
      simp only [hkx] at h
      simpa [List.lookup_cons, hkx] using ih h

theorem lookup_merge_filter {a b : ThemeVariables} {k : String}
    (h : a.lookup k = none) :
    (b.filter (fun kv => (a.lookup kv.1).isNone)).lookup k = b.lookup k := by
  induction b with
  | nil => rfl
  | cons e rest ih =>
    obtain ⟨x, y⟩ := e
    rw [List.lookup_cons]
    cases hkx : (k == x) with
    | true =>
      have hkxeq : k = x := by simpa using hkx
      rw [List.filter_cons]
      have : (a.lookup x).isNone = true := by rw [← hkxeq, h]; rfl
      simp only [this, if_true]
      rw [List.lookup_cons, hkx]
    | false =>
      rw [List.filter_cons]
      cases hax : (a.lookup x).isNone with
      | true =>
        simp only [hax, if_true]
        rw [List.lookup_cons, hkx]
        exact ih
      | false =>
        simp only [hax, Bool.false_eq_true, if_false]
        exact ih

theorem mergeVars_lookup_some {a b : ThemeVariables} {k : String} {v : JSValue}
    (h : a.lookup k = some v) :
    (mergeVars a b).lookup k = some ((b.lookup k).getD v) := by
  unfold mergeVars
  exact lookup_append_some _ (lookup_merge_left h)

theorem mergeVars_lookup_none {a b : ThemeVariables} {k : String}
    (h : a.lookup k = none) :
    (mergeVars a b).lookup k = b.lookup k := by
  unfold mergeVars
  rw [lookup_append_none _ (lookup_merge_left_none h)]
  exact lookup_merge_filter h

end ThemeMgr

namespace ThemeMgr

theorem lookup_isSome_of_mem {β : Type} {l : List (String × β)} {k : String} {v : β}
    (hnd : (l.map Prod.fst).Nodup) (h : (k, v) ∈ l) : (l.lookup k).isSome = true := by
  rw [lookup_of_mem_nodup hnd h]; rfl

theorem mergeVars_absorb {a b : ThemeVariables} (hnd : (a.map Prod.fst).Nodup) :
    mergeVars a (mergeVars a b) = mergeVars a b := by
  have hmap : a.map (fun kv => (kv.1, (((mergeVars a b).lookup kv.1).getD kv.2))) =
      a.map (fun kv => (kv.1, ((b.lookup kv.1).getD kv.2))) := by
    apply List.map_congr_left
    intro kv hkv
    have hkv2 : (kv.1, kv.2) ∈ a := by simpa using hkv
    have hl : a.lookup kv.1 = some kv.2 := lookup_of_mem_nodup hnd hkv2
    rw [mergeVars_lookup_some hl]
    simp
  have hfilter : (mergeVars a b).filter (fun kv => (a.lookup kv.1).isNone) =
      b.filter (fun kv => (a.lookup kv.1).isNone) := by
    unfold mergeVars
    rw [List.filter_append]
    have h1 : (a.map (fun kv => (kv.1, ((b.lookup kv.1).getD kv.2)))).filter
        (fun kv => (a.lookup kv.1).isNone) = [] := by
      rw [List.filter_eq_nil_iff]
      intro kv hkv
      simp only [List.mem_map] at hkv
      obtain ⟨e, he, heq⟩ := hkv
      have he2 : (e.1, e.2) ∈ a := by simpa using he
      have hsome := lookup_isSome_of_mem hnd he2
      subst heq
      cases hx : a.lookup e.1 with
      | none => rw [hx] at hsome; simp at hsome
      | some w => simp [hx]
    have h2 : ((b.filter (fun kv => (a.lookup kv.1).isNone)).filter
        (fun kv => (a.lookup kv.1).isNone)) =
        b.filter (fun kv => (a.lookup kv.1).isNone) := by
      rw [List.filter_filter]
      apply List.filter_congr
      intro kv _
      simp
    rw [h1, h2, List.nil_append]
  calc mergeVars a (mergeVars a b)
      = a.map (fun kv => (kv.1, (((mergeVars a b).lookup kv.1).getD kv.2))) ++
          (mergeVars a b).filter (fun kv => (a.lookup kv.1).isNone) := rfl
    _ = a.map (fun kv => (kv.1, ((b.lookup kv.1).getD kv.2))) ++
          b.filter (fun kv => (a.lookup kv.1).isNone) := by rw [hmap, hfilter]
    _ = mergeVars a b := rfl

/-! ## mapDelete, reindexFrom, indicesAlignedFrom lemmas -/

theorem lookup_mapDelete_ne {m : List (String × TMThemeConfig)} {k n : String}
    (hk : ¬(k = n)) : (mapDelete m n).lookup k = m.lookup k := by
  induction m with
  | nil => rfl
  | cons e rest ih =>
    obtain ⟨a, c⟩ := e
    unfold mapDelete at *
    rw [List.eraseP_cons]
    cases han : (a == n) with
    | true =>
      have ha : a = n := by simpa using han
      have hka : (k == a) = false := by simp [ha, hk]
      simp only [han, cond_true]
      rw [List.lookup_cons, hka]
    | false =>
      simp only [han, cond_false]
      rw [List.lookup_cons, List.lookup_cons]
      cases hka : (k == a) with
      | true => simp
      | false => simpa using ih

theorem lookup_mapDelete_self {m : List (String × TMThemeConfig)} {n : String}
    (hnd : (m.map Prod.fst).Nodup) : (mapDelete m n).lookup n = none := by
  induction m with
  | nil => rfl
  | cons e rest ih =>
    obtain ⟨a, c⟩ := e
    simp only [List.map_cons, List.nodup_cons] at hnd
    unfold mapDelete at *
    rw [List.eraseP_cons]
    cases han : (a == n) with
    | true =>
      have ha : a = n := by simpa using han
      simp only [han, cond_true]
      exact lookup_eq_none_of_not_mem (ha ▸ hnd.1)
    | false =>
      have ha : ¬(a = n) := by simpa using han
      have hna : (n == a) = false := by
        simp
        exact fun h => ha h.symm
      simp only [han, cond_false]
      rw [List.lookup_cons, hna]
      exact ih hnd.2

theorem keys_mapDelete_sublist (m : List (String × TMThemeConfig)) (n : String) :
    List.Sublist ((mapDelete m n).map Prod.fst) (m.map Prod.fst) :=
  List.Sublist.map Prod.fst (List.eraseP_sublist m)

theorem nodup_mapDelete {m : List (String × TMThemeConfig)} (n : String)
    (hnd : (m.map Prod.fst).Nodup) : ((mapDelete m n).map Prod.fst).Nodup :=
  List.Nodup.sublist (keys_mapDelete_sublist m n) hnd

theorem length_mapDelete_of_has {m : List (String × TMThemeConfig)} {n : String}
    (h : mapHas m n = true) : (mapDelete m n).length + 1 = m.length := by
  induction m with
  | nil => simp [mapHas, List.lookup] at h
  | cons e rest ih =>
    obtain ⟨a, c⟩ := e
    unfold mapDelete at *
    rw [List.eraseP_cons]
    cases han : (a == n) with
    | true => simp [han]
    | false =>
      have hna : (n == a) = false := by
        have : ¬(a = n) := by simpa using han
        simp
        exact fun hh => this hh.symm
      unfold mapHas at h
      rw [List.lookup_cons, hna] at h
      simp only [han, cond_false]
      simp [ih h]

theorem keys_reindexFrom (k : Nat) (m : List (String × TMThemeConfig)) :
    (reindexFrom k m).map Prod.fst = m.map Prod.fst := by
  induction m generalizing k with
  | nil => rfl
  | cons e rest ih => simp [reindexFrom, ih]

theorem length_reindexFrom (k : Nat) (m : List (String × TMThemeConfig)) :
    (reindexFrom k m).length = m.length := by
  induction m generalizing k with
  | nil => rfl
  | cons e rest ih => simp [reindexFrom, ih]

theorem lookup_reindexFrom_data (k : Nat) (m : List (String × TMThemeConfig)) (n : String) :
    ((reindexFrom k m).lookup n).map TMThemeConfig.data =
      (m.lookup n).map TMThemeConfig.data := by
  induction m generalizing k with
  | nil => rfl
  | cons e rest ih =>
    obtain ⟨a, c⟩ := e
    show ((List.lookup n ((a, ⟨k, c.data⟩) :: reindexFrom (k + 1) rest)).map
      TMThemeConfig.data) = _
    rw [List.lookup_cons, List.lookup_cons]
    cases hna : (n == a) with
    | true => simp
    | false => simpa using ih (k + 1)

theorem mapHas_reindexFrom (k : Nat) (m : List (String × TMThemeConfig)) (n : String) :
    mapHas (reindexFrom k m) n = mapHas m n := by
  unfold mapHas
  have h := lookup_reindexFrom_data k m n
  cases h1 : (reindexFrom k m).lookup n <;> cases h2 : m.lookup n <;>
    simp [h1, h2] at h ⊢

theorem indicesAlignedFrom_reindexFrom (m : List (String × TMThemeConfig)) (k : Nat) :
    indicesAlignedFrom k (reindexFrom k m) = true := by
  induction m generalizing k with
  | nil => rfl
  | cons e rest ih => simp [reindexFrom, indicesAlignedFrom, ih]

theorem index_bound_of_aligned {m : List (String × TMThemeConfig)} {k : Nat}
    {n : String} {c : TMThemeConfig}
    (hal : indicesAlignedFrom k m = true) (hl : m.lookup n = some c) :
    c.index < k + m.length := by
  induction m generalizing k with
  | nil => simp [List.lookup] at hl
  | cons e rest ih =>
    obtain ⟨a, c0⟩ := e
    simp only [indicesAlignedFrom, Bool.and_eq_true, beq_iff_eq] at hal
    rw [List.lookup_cons] at hl
    cases hna : (n == a) with
    | true =>
      simp only [hna] at hl
      simp only [Option.some.injEq] at hl
      subst hl
      simp [hal.1]
    | false =>
      simp only [hna] at hl
      have := ih hal.2 hl
      simp only [List.length_cons]
      omega

theorem indicesAligned_append_one {m : List (String × TMThemeConfig)} {k : Nat}
    (n : String) (d : ThemeVariables)
    (hal : indicesAlignedFrom k m = true) :
    indicesAlignedFrom k (m ++ [(n, ⟨k + m.length, d⟩)]) = true := by
  induction m generalizing k with
  | nil => simp [indicesAlignedFrom]
  | cons e rest ih =>
    simp only [indicesAlignedFrom, Bool.and_eq_true] at hal
    simp only [List.cons_append, indicesAlignedFrom, Bool.and_eq_true]
    refine ⟨hal.1, ?_⟩
    have := ih hal.2
    simpa [Nat.add_assoc, Nat.add_comm 1 rest.length] using this

theorem ruleListFor_reindexFrom (base : ThemeVariables) (k : Nat)
    (m : List (String × TMThemeConfig)) :
    ruleListFor base (reindexFrom k m) = ruleListFor base m := by
  induction m generalizing k with
  | nil => rfl
  | cons e rest ih =>
    have h2 := ih (k + 1)
    simp only [ruleListFor] at h2
    simp [reindexFrom, ruleListFor, h2]

theorem length_ruleListFor (base : ThemeVariables) (m : List (String × TMThemeConfig)) :
    (ruleListFor base m).length = m.length := by
  simp [ruleListFor]

end ThemeMgr

namespace ThemeMgr

/-! ## rebuildRuleIndexes characterization -/

theorem setRuleIndex_append (A B : List (String × TMThemeConfig)) (n : String) (i : Nat) :
    setRuleIndex (A ++ B) n i = setRuleIndex A n i ++ setRuleIndex B n i := by
  unfold setRuleIndex
  exact List.map_append _ A B

theorem setRuleIndex_not_mem {A : List (String × TMThemeConfig)} {n : String} (i : Nat)
    (h : n ∉ A.map Prod.fst) : setRuleIndex A n i = A := by
  induction A with
  | nil => rfl
  | cons e rest ih =>
    simp only [List.map_cons, List.mem_cons] at h
    push_neg at h
    unfold setRuleIndex at *
    simp only [List.map_cons]
    rw [if_neg (fun hh => h.1 hh.symm)]
    rw [ih h.2]

theorem setRuleIndex_cons_self {rest : List (String × TMThemeConfig)}
    (e : String × TMThemeConfig) (i : Nat) (h : e.1 ∉ rest.map Prod.fst) :
    setRuleIndex (e :: rest) e.1 i = (e.1, ⟨i, e.2.data⟩) :: rest := by
  unfold setRuleIndex
  simp only [List.map_cons, if_pos rfl]
  have h2 := setRuleIndex_not_mem i h
  unfold setRuleIndex at h2
  rw [h2]
  simp

theorem rebuild_go (l : List (String × TMThemeConfig)) :
    ∀ (A : List (String × TMThemeConfig)) (st : TMState),
    st.themeMap = A ++ l →
    (((A ++ l).map Prod.fst)).Nodup →
    List.foldl rebuildStep st l =
      { st with themeMap := A ++ reindexFrom st.styleSheet.length l,
                styleSheet := st.styleSheet ++ ruleListFor st.baseVariables l } := by
  induction l with
  | nil =>
    intro A st hm _
    simp only [List.foldl_nil, reindexFrom, ruleListFor, List.map_nil,
      List.append_nil]
    have hm2 : st.themeMap = A := by simpa using hm
    rw [← hm2]
  | cons e l2 ih =>
    intro A st hm hnd
    have hkeys : ((A ++ e :: l2).map Prod.fst) =
        A.map Prod.fst ++ e.1 :: l2.map Prod.fst := by
      simp
    rw [hkeys] at hnd
    have hnotA : e.1 ∉ A.map Prod.fst := by
      intro hmem
      exact (List.disjoint_of_nodup_append hnd) hmem (List.mem_cons_self _ _)
    have hnotl2 : e.1 ∉ l2.map Prod.fst := by
      have := (List.nodup_append.mp hnd).2.1
      exact (List.nodup_cons.mp this).1
    have hstep : rebuildStep st e =
        { st with
          styleSheet := st.styleSheet ++
            [themeRuleText e.1 (mergeVars st.baseVariables e.2.data)],
          themeMap := (A ++ [(e.1, ⟨st.styleSheet.length, e.2.data⟩)]) ++ l2 } := by
      simp only [rebuildStep]
      rw [hm, setRuleIndex_append, setRuleIndex_not_mem _ hnotA,
        setRuleIndex_cons_self e _ hnotl2]
      simp
    rw [List.foldl_cons, hstep]
    rw [ih (A ++ [(e.1, ⟨st.styleSheet.length, e.2.data⟩)])
      _ (by simp) (by simpa using hnd)]
    simp only [List.length_append, List.length_cons, List.length_nil]
    simp [reindexFrom, ruleListFor, List.append_assoc]

theorem rebuildRuleIndexes_spec (s : TMState)
    (hnd : ((s.themeMap.map Prod.fst)).Nodup) :
    rebuildRuleIndexes s =
      { s with themeMap := reindexFrom 0 s.themeMap,
               styleSheet := ruleListFor s.baseVariables s.themeMap } := by
  unfold rebuildRuleIndexes
  have h := rebuild_go s.themeMap [] { s with styleSheet := [] }
    (by simp) (by simpa using hnd)
  simpa using h

end ThemeMgr

namespace ThemeMgr

/-! ## Small helper facts -/

theorem lookup_isSome_of_mem_keys {β : Type} {l : List (String × β)} {k : String}
    (h : k ∈ l.map Prod.fst) : (l.lookup k).isSome = true := by
  induction l with
  | nil => simp at h
  | cons e rest ih =>
    obtain ⟨a, b⟩ := e
    simp only [List.map_cons, List.mem_cons] at h
    rw [List.lookup_cons]
    cases hka : (k == a) with
    | true => simp
    | false =>
      rcases h with h | h
      · have hne : ¬(k = a) := by simpa using hka
        exact absurd h hne
      · exact ih h

theorem mapHas_false_lookup_none {m : List (String × TMThemeConfig)} {n : String}
    (h : mapHas m n = false) : m.lookup n = none := by
  unfold mapHas at h
  cases hx : m.lookup n
  · rfl
  · rw [hx] at h; simp at h

theorem not_mem_keys_of_mapHas_false {m : List (String × TMThemeConfig)} {n : String}
    (h : mapHas m n = false) : n ∉ m.map Prod.fst := by
  intro hmem
  have := lookup_isSome_of_mem_keys hmem
  unfold mapHas at h
  rw [this] at h
  simp at h

theorem attrRegistered_ne {s : TMState} {n : String}
    (hA : attrRegistered s = true) (hHas : mapHas s.themeMap n = false) :
    ¬(s.attr = some n) := by
  intro heq
  unfold attrRegistered at hA
  simp only [heq] at hA
  rw [hA] at hHas
  simp at hHas

theorem sysThemeName_ne_empty (t : SysTheme) : ¬(sysThemeName t = "") := by
  cases t <;> simp [sysThemeName]

theorem validName_ne_empty {n : String} (h : isValidThemeName n = true) : ¬(n = "") := by
  intro heq
  subst heq
  exact absurd h (by decide)

/-! ## toggle characterization -/

theorem toggle_none_ok {s : TMState} (hD : s.isDestroyed = false) :
    toggle s none = .ok (toggleClear s) := by
  simp [toggle, hD]

theorem toggle_some_ok {s : TMState} {n : String} {c : TMThemeConfig}
    (hD : s.isDestroyed = false) (hv : isValidThemeName n = true)
    (hl : s.themeMap.lookup n = some c) :
    toggle s (some n) = .ok (emitEvent { s with attr := some n }
      (.themeChange (some n) (some (mergeVars s.baseVariables c.data)))) := by
  have hne := validName_ne_empty hv
  simp [toggle, hD, hne, hv, hl]

/-! ## unregister characterization -/

theorem unregister_not_found {s : TMState} {n : String}
    (hD : s.isDestroyed = false) (hl : s.themeMap.lookup n = none) :
    unregister s n = .ok s := by
  simp [unregister, hD, hl]

theorem unregister_found_inactive {s : TMState} {n : String} {c : TMThemeConfig}
    (hD : s.isDestroyed = false)
    (hSheet : s.styleSheet = ruleListFor s.baseVariables s.themeMap)
    (hAl : indicesAlignedFrom 0 s.themeMap = true)
    (hnd : (s.themeMap.map Prod.fst).Nodup)
    (hl : s.themeMap.lookup n = some c)
    (hattr : ¬(s.attr = some n)) :
    unregister s n = .ok
      { s with styleSheet := ruleListFor s.baseVariables (mapDelete s.themeMap n),
               themeMap := reindexFrom 0 (mapDelete s.themeMap n),
               events := s.events ++ [TMEvent.themeUnregister n] } := by
  have hidx : c.index < s.styleSheet.length := by
    rw [hSheet, length_ruleListFor]
    simpa using index_bound_of_aligned hAl hl
  have hrb := rebuildRuleIndexes_spec
    { s with styleSheet := s.styleSheet.eraseIdx c.index,
             themeMap := mapDelete s.themeMap n,
             isDestroyed := false }
    (by simpa using nodup_mapDelete n hnd)
  simp only [unregister, hD, Bool.false_eq_true, if_false, hl, hidx, if_true]
  rw [hrb]
  simp [emitEvent, hattr, hD]

theorem unregister_found_active {s : TMState} {n : String} {c : TMThemeConfig}
    (hD : s.isDestroyed = false)
    (hSheet : s.styleSheet = ruleListFor s.baseVariables s.themeMap)
    (hAl : indicesAlignedFrom 0 s.themeMap = true)
    (hnd : (s.themeMap.map Prod.fst).Nodup)
    (hl : s.themeMap.lookup n = some c)
    (hattr : s.attr = some n) :
    unregister s n = .ok
      { s with attr := none,
               styleSheet := ruleListFor s.baseVariables (mapDelete s.themeMap n),
               themeMap := reindexFrom 0 (mapDelete s.themeMap n),
               events := s.events ++
                 [TMEvent.themeUnregister n, TMEvent.themeChange none none] } := by
  have hidx : c.index < s.styleSheet.length := by
    rw [hSheet, length_ruleListFor]
    simpa using index_bound_of_aligned hAl hl
  have hrb := rebuildRuleIndexes_spec
    { s with styleSheet := s.styleSheet.eraseIdx c.index,
             themeMap := mapDelete s.themeMap n,
             isDestroyed := false }
    (by simpa using nodup_mapDelete n hnd)
  simp only [unregister, hD, Bool.false_eq_true, if_false, hl, hidx, if_true]
  rw [hrb]
  simp [emitEvent, hattr, toggleClear, hD]

end ThemeMgr

namespace ThemeMgr

theorem registerPre_spec {s : TMState} (n : String)
    (hD : s.isDestroyed = false)
    (hSheet : s.styleSheet = ruleListFor s.baseVariables s.themeMap)
    (hAl : indicesAlignedFrom 0 s.themeMap = true)
    (hAttr : attrRegistered s = true)
    (hnd : (s.themeMap.map Prod.fst).Nodup) :
    ∃ s1, (if mapHas s.themeMap n then unregister s n else .ok s) = .ok s1 ∧
      PreState s n s1 := by
  cases hHas : mapHas s.themeMap n with
  | false =>
    refine ⟨s, by simp [hHas], ?_⟩
    exact {
      destroyed := hD
      base := rfl
      disable := rfl
      system := rfl
      listenersEq := rfl
      hasN := hHas
      attrN := attrRegistered_ne hAttr hHas
      sheet := hSheet
      aligned := hAl
      attrReg := hAttr
      nodup := hnd
      len := by simp [hHas]
      lookupNe := fun k _ => rfl
      attrCase := Or.inl rfl
      eventsExt := ⟨[], by simp⟩ }
  | true =>
    obtain ⟨c, hc⟩ : ∃ c, s.themeMap.lookup n = some c := by
      unfold mapHas at hHas
      exact Option.isSome_iff_exists.mp hHas
    have hasDel : mapHas (reindexFrom 0 (mapDelete s.themeMap n)) n = false := by
      rw [mapHas_reindexFrom]
      unfold mapHas
      rw [lookup_mapDelete_self hnd]
      rfl
    have hlen : (reindexFrom 0 (mapDelete s.themeMap n)).length =
        s.themeMap.length - 1 := by
      rw [length_reindexFrom]
      have := length_mapDelete_of_has hHas
      omega
    have hlookupNe : ∀ k, ¬(k = n) →
        ((reindexFrom 0 (mapDelete s.themeMap n)).lookup k).map TMThemeConfig.data =
          (s.themeMap.lookup k).map TMThemeConfig.data := by
      intro k hk
      rw [lookup_reindexFrom_data, lookup_mapDelete_ne hk]
    have hndDel : ((reindexFrom 0 (mapDelete s.themeMap n)).map Prod.fst).Nodup := by
      rw [keys_reindexFrom]
      exact nodup_mapDelete n hnd
    have hsheetDel : ruleListFor s.baseVariables (mapDelete s.themeMap n) =
        ruleListFor s.baseVariables (reindexFrom 0 (mapDelete s.themeMap n)) :=
      (ruleListFor_reindexFrom s.baseVariables 0 (mapDelete s.themeMap n)).symm
    by_cases hattr : s.attr = some n
    · refine ⟨_, by
        simpa using unregister_found_active hD hSheet hAl hnd hc hattr, ?_⟩
      exact {
        destroyed := hD
        base := rfl
        disable := rfl
        system := rfl
        listenersEq := rfl
        hasN := hasDel
        attrN := by simp
        sheet := hsheetDel
        aligned := indicesAlignedFrom_reindexFrom _ 0
        attrReg := by unfold attrRegistered; simp
        nodup := hndDel
        len := by simp [hHas, hlen]
        lookupNe := hlookupNe
        attrCase := Or.inr ⟨hattr, rfl⟩
        eventsExt := ⟨_, rfl⟩ }
    · refine ⟨_, by
        simpa using unregister_found_inactive hD hSheet hAl hnd hc hattr, ?_⟩
      refine {
        destroyed := hD
        base := rfl
        disable := rfl
        system := rfl
        listenersEq := rfl
        hasN := hasDel
        attrN := hattr
        sheet := hsheetDel
        aligned := indicesAlignedFrom_reindexFrom _ 0
        attrReg := ?_
        nodup := hndDel
        len := by simp [hHas, hlen]
        lookupNe := hlookupNe
        attrCase := Or.inl rfl
        eventsExt := ⟨_, rfl⟩ }
      unfold attrRegistered at hAttr ⊢
      cases hat : s.attr with
      | none => simp
      | some t =>
        have ht : ¬(t = n) := by
          intro h
          exact hattr (by rw [hat, h])
        rw [hat] at hAttr
        show mapHas (reindexFrom 0 (mapDelete s.themeMap n)) t = true
        rw [mapHas_reindexFrom]
        unfold mapHas at hAttr ⊢
        rw [lookup_mapDelete_ne ht]
        exact hAttr

end ThemeMgr

namespace ThemeMgr

/-! ## registerCore characterization and invariant preservation -/

theorem registerCore_fields (s1 : TMState) (n : String) (d : ThemeVariables)
    (hHas : mapHas s1.themeMap n = false) :
    registerCore s1 n d = { s1 with
      styleSheet := s1.styleSheet ++ [themeRuleText n (mergeVars s1.baseVariables d)],
      themeMap := s1.themeMap ++ [(n, ⟨s1.styleSheet.length, d⟩)],
      events := s1.events ++ [TMEvent.themeRegister n d] } := by
  simp [registerCore, mapSet, hHas, emitEvent]

theorem registerCore_inv {s1 : TMState} {n : String} {d : ThemeVariables}
    (_hD : s1.isDestroyed = false)
    (hSheet : s1.styleSheet = ruleListFor s1.baseVariables s1.themeMap)
    (hAl : indicesAlignedFrom 0 s1.themeMap = true)
    (hAttr : attrRegistered s1 = true)
    (hnd : (s1.themeMap.map Prod.fst).Nodup)
    (hHas : mapHas s1.themeMap n = false) :
    Inv (registerCore s1 n d) := by
  rw [registerCore_fields s1 n d hHas]
  intro _
  have hlen : s1.styleSheet.length = s1.themeMap.length := by
    rw [hSheet, length_ruleListFor]
  refine ⟨?_, ?_, ?_, ?_⟩
  · show s1.styleSheet ++ [themeRuleText n (mergeVars s1.baseVariables d)] =
      ruleListFor s1.baseVariables (s1.themeMap ++ [(n, ⟨s1.styleSheet.length, d⟩)])
    rw [hSheet]
    unfold ruleListFor
    simp
  · show indicesAlignedFrom 0
      (s1.themeMap ++ [(n, ⟨s1.styleSheet.length, d⟩)]) = true
    rw [hlen]
    have h := indicesAligned_append_one n d hAl
    simpa using h
  · show attrRegistered _ = true
    unfold attrRegistered at hAttr ⊢
    cases hat : s1.attr with
    | none => simp [hat]
    | some t =>
      simp only [hat] at hAttr
      unfold mapHas at hAttr ⊢
      obtain ⟨ct, hct⟩ := Option.isSome_iff_exists.mp hAttr
      simp [lookup_append_some _ hct]
  · show ((s1.themeMap ++ [(n, (⟨s1.styleSheet.length, d⟩ : TMThemeConfig))]).map
      Prod.fst).Nodup
    have hnotin := not_mem_keys_of_mapHas_false hHas
    rw [List.map_append]
    simp [List.nodup_append, hnd, hnotin]

theorem preState_inv {s : TMState} {n : String} {s1 : TMState}
    (hp : PreState s n s1) : Inv s1 :=
  fun _ => ⟨hp.sheet, hp.aligned, hp.attrReg, hp.nodup⟩

theorem unregister_ok_props {s : TMState} (n : String)
    (hD : s.isDestroyed = false)
    (hSheet : s.styleSheet = ruleListFor s.baseVariables s.themeMap)
    (hAl : indicesAlignedFrom 0 s.themeMap = true)
    (hAttr : attrRegistered s = true)
    (hnd : (s.themeMap.map Prod.fst).Nodup) :
    ∃ s1, unregister s n = .ok s1 ∧ PreState s n s1 := by
  obtain ⟨s1, heq, hp⟩ := registerPre_spec n hD hSheet hAl hAttr hnd
  cases hHas : mapHas s.themeMap n with
  | true =>
    rw [hHas] at heq
    simp only [if_true] at heq
    exact ⟨s1, heq, hp⟩
  | false =>
    rw [hHas] at heq
    simp only [Bool.false_eq_true, if_false, Except.ok.injEq] at heq
    subst heq
    exact ⟨_, unregister_not_found hD (mapHas_false_lookup_none hHas), hp⟩

/-! ## toggle preserves the invariant -/

theorem toggleClear_inv {s : TMState} (hInv : Inv s) : Inv (toggleClear s) := by
  intro hd
  have hD : s.isDestroyed = false := hd
  obtain ⟨hSheet, hAl, _, hnd⟩ := hInv hD
  exact ⟨hSheet, hAl, rfl, hnd⟩

theorem toggle_inv {s : TMState} {o : Option String} {s' : TMState}
    (hInv : Inv s) (h : toggle s o = .ok s') : Inv s' := by
  unfold toggle at h
  cases hD : s.isDestroyed with
  | true => simp [hD] at h
  | false =>
    simp only [hD, Bool.false_eq_true, if_false] at h
    obtain ⟨hSheet, hAl, hAttr, hnd⟩ := hInv hD
    cases o with
    | none =>
      simp only [Except.ok.injEq] at h
      subst h
      exact toggleClear_inv hInv
    | some n =>
      by_cases hne : n = ""
      · simp only [hne, if_true, Except.ok.injEq] at h
        subst h
        exact toggleClear_inv hInv
      · simp only [hne, if_false] at h
        cases hvn : isValidThemeName n with
        | false => simp [hvn] at h
        | true =>
          simp only [hvn, Bool.not_true, Bool.false_eq_true, if_false] at h
          cases hl : s.themeMap.lookup n with
          | none => simp [hl] at h
          | some c =>
            simp only [hl, Except.ok.injEq] at h
            subst h
            intro _
            refine ⟨hSheet, hAl, ?_, hnd⟩
            show mapHas s.themeMap n = true
            unfold mapHas
            rw [hl]
            rfl

end ThemeMgr

namespace ThemeMgr

/-! ## register / applyDefaultTheme: success characterization and
invariant preservation -/

theorem runRegister_ok_spec {s : TMState} {n : String} {d : ThemeVariables} (f : Nat)
    (hD : s.isDestroyed = false)
    (hSheet : s.styleSheet = ruleListFor s.baseVariables s.themeMap)
    (hAl : indicesAlignedFrom 0 s.themeMap = true)
    (hAttr : attrRegistered s = true)
    (hnd : (s.themeMap.map Prod.fst).Nodup)
    (hvn : isValidThemeName n = true) (hvd : isValidThemeData d = true) :
    ∃ s1, PreState s n s1 ∧
      runThemeCall (f + 1) (.callRegister s n d) = .ok (registerCore s1 n d) := by
  obtain ⟨s1, heq, hp⟩ := registerPre_spec n hD hSheet hAl hAttr hnd
  refine ⟨s1, hp, ?_⟩
  have hattr2 : ¬((registerCore s1 n d).attr = some n) := by
    simpa [registerCore, mapSet, emitEvent] using hp.attrN
  simp only [runThemeCall, hD, Bool.false_eq_true, if_false, hvn, hvd,
    Bool.not_true, heq, hattr2, if_true]

theorem runThemeCall_inv (f : Nat) :
    (∀ s n d s', Inv s → runThemeCall f (.callRegister s n d) = .ok s' → Inv s') ∧
    (∀ s s', Inv s → runThemeCall f (.callApplyDefaultTheme s) = .ok s' → Inv s') := by
  induction f with
  | zero =>
    constructor
    · intro s n d s' _ h
      simp [runThemeCall] at h
    · intro s s' _ h
      simp [runThemeCall] at h
  | succ f ih =>
    constructor
    · intro s n d s' hInv h
      simp only [runThemeCall] at h
      cases hD : s.isDestroyed with
      | true => simp [hD] at h
      | false =>
        simp only [hD, Bool.false_eq_true, if_false] at h
        cases hvn : isValidThemeName n with
        | false => simp [hvn] at h
        | true =>
          simp only [hvn, Bool.not_true, Bool.false_eq_true, if_false] at h
          cases hvd : isValidThemeData d with
          | false => simp [hvd] at h
          | true =>
            simp only [hvd, Bool.not_true, Bool.false_eq_true, if_false] at h
            obtain ⟨hSheet, hAl, hAttr, hnd⟩ := hInv hD
            obtain ⟨s1, heq, hp⟩ := registerPre_spec n hD hSheet hAl hAttr hnd
            rw [heq] at h
            simp only [] at h
            have hInv2 : Inv (registerCore s1 n d) :=
              registerCore_inv hp.destroyed hp.sheet hp.aligned hp.attrReg
                hp.nodup hp.hasN
            by_cases hat : (registerCore s1 n d).attr = some n
            · rw [if_pos hat] at h
              exact ih.2 _ _ hInv2 h
            · rw [if_neg hat] at h
              simp only [Except.ok.injEq] at h
              subst h
              exact hInv2
    · intro s s' hInv h
      simp only [runThemeCall] at h
      cases hdis : s.disableFollowSystemTheme with
      | true =>
        simp only [hdis, if_true, Except.ok.injEq] at h
        subst h
        exact hInv
      | false =>
        simp only [hdis, Bool.false_eq_true, if_false] at h
        cases hD : s.isDestroyed with
        | true => simp [getCurrentTheme, hD] at h
        | false =>
          simp only [getCurrentTheme, hD, Bool.false_eq_true, if_false] at h
          obtain ⟨hSheet, hAl, hAttr, hnd⟩ := hInv hD
          by_cases hcond :
              (jsFalsyStr s.attr || s.attr == some "default") = true
          · rw [if_pos (by simpa using hcond)] at h
            cases hgtd : getThemeData s (some (sysThemeName s.systemTheme)) with
            | error e => rw [hgtd] at h; simp at h
            | ok od =>
              rw [hgtd] at h
              cases od with
              | none =>
                simp only [Except.ok.injEq] at h
                subst h
                exact hInv
              | some data =>
                simp only [] at h
                obtain ⟨s1, hequ, hp⟩ :=
                  unregister_ok_props "default" hD hSheet hAl hAttr hnd
                rw [hequ] at h
                simp only [] at h
                cases hr : runThemeCall f (.callRegister s1 "default" data) with
                | error e => rw [hr] at h; simp at h
                | ok s2 =>
                  rw [hr] at h
                  simp only [] at h
                  have hInv2 : Inv s2 := ih.1 _ _ _ _ (preState_inv hp) hr
                  exact toggle_inv hInv2 h
          · rw [if_neg (by simpa using hcond)] at h
            simp only [Except.ok.injEq] at h
            subst h
            exact hInv

end ThemeMgr

namespace ThemeMgr

/-! ## Invariant preservation of each public operation -/

theorem register_inv {s : TMState} {n : String} {d : ThemeVariables} {s' : TMState}
    (hInv : Inv s) (h : register s n d = .ok s') : Inv s' :=
  (runThemeCall_inv themeFuel).1 s n d s' hInv h

theorem applyDefaultTheme_inv {s s' : TMState}
    (hInv : Inv s) (h : applyDefaultTheme s = .ok s') : Inv s' :=
  (runThemeCall_inv themeFuel).2 s s' hInv h

theorem unregister_inv {s : TMState} {n : String} {s' : TMState}
    (hInv : Inv s) (h : unregister s n = .ok s') : Inv s' := by
  cases hD : s.isDestroyed with
  | true => simp [unregister, hD] at h
  | false =>
    obtain ⟨hSheet, hAl, hAttr, hnd⟩ := hInv hD
    obtain ⟨s1, hequ, hp⟩ := unregister_ok_props n hD hSheet hAl hAttr hnd
    rw [hequ] at h
    simp only [Except.ok.injEq] at h
    subst h
    exact preState_inv hp

theorem registerSequentially_inv (l : List (String × ThemeVariables)) :
    ∀ (s s' : TMState), Inv s → registerSequentially s l = .ok s' → Inv s' := by
  induction l with
  | nil =>
    intro s s' hInv h
    have h2 : (Except.ok s : Except TMError TMState) = .ok s' := h
    cases h2
    exact hInv
  | cons e rest ih =>
    intro s s' hInv h
    have h2 : (register s e.1 e.2 >>= fun s1 => registerSequentially s1 rest) =
        .ok s' := h
    cases hr : register s e.1 e.2 with
    | error er =>
      rw [hr] at h2
      have h3 : (Except.error er : Except TMError TMState) = .ok s' := h2
      simp at h3
    | ok s1 =>
      rw [hr] at h2
      have h3 : registerSequentially s1 rest = .ok s' := h2
      exact ih s1 s' (register_inv hInv hr) h3

theorem registerBatch_inv {s : TMState} {l : List (String × ThemeVariables)}
    {s' : TMState} (hInv : Inv s) (h : registerBatch s l = .ok s') : Inv s' := by
  unfold registerBatch at h
  cases hD : s.isDestroyed with
  | true => simp [hD] at h
  | false =>
    simp only [hD, Bool.false_eq_true, if_false] at h
    exact registerSequentially_inv l s s' hInv h

theorem cloneTheme_inv {s : TMState} {src tgt : String} {ov : ThemeVariables}
    {s' : TMState} (hInv : Inv s) (h : cloneTheme s src tgt ov = .ok s') : Inv s' := by
  unfold cloneTheme at h
  cases hD : s.isDestroyed with
  | true => simp [hD] at h
  | false =>
    simp only [hD, Bool.false_eq_true, if_false] at h
    cases hl : s.themeMap.lookup src with
    | none => rw [hl] at h; simp at h
    | some c =>
      rw [hl] at h
      exact register_inv hInv h

theorem updateBaseVariables_inv {s : TMState} {p : ThemeVariables} {s' : TMState}
    (hInv : Inv s) (h : updateBaseVariables s p = .ok s') : Inv s' := by
  unfold updateBaseVariables at h
  cases hD : s.isDestroyed with
  | true => simp [hD] at h
  | false =>
    simp only [hD, Bool.false_eq_true, if_false, Except.ok.injEq] at h
    obtain ⟨_, _, hAttr, hnd⟩ := hInv hD
    have hrb := rebuildRuleIndexes_spec
      { s with baseVariables := mergeVars s.baseVariables p, isDestroyed := false }
      (by simpa using hnd)
    rw [hrb] at h
    subst h
    intro _
    refine ⟨?_, ?_, ?_, ?_⟩
    · show ruleListFor (mergeVars s.baseVariables p) s.themeMap =
        ruleListFor (mergeVars s.baseVariables p) (reindexFrom 0 s.themeMap)
      rw [ruleListFor_reindexFrom]
    · exact indicesAlignedFrom_reindexFrom _ 0
    · show attrRegistered _ = true
      unfold attrRegistered at hAttr ⊢
      cases hat : s.attr with
      | none => simp
      | some t =>
        simp only [hat] at hAttr
        show mapHas (reindexFrom 0 s.themeMap) t = true
        rw [mapHas_reindexFrom]
        exact hAttr
    · show ((reindexFrom 0 s.themeMap).map Prod.fst).Nodup
      rw [keys_reindexFrom]
      exact hnd

theorem destroy_inv (s : TMState) (hInv : Inv s) : Inv (destroy s) := by
  unfold destroy
  cases hD : s.isDestroyed with
  | true => simpa [hD] using hInv
  | false =>
    simp only [hD, Bool.false_eq_true, if_false]
    intro hd
    simp at hd

theorem handleSystemThemeChange_inv {s : TMState} {m : Bool} {s' : TMState}
    (hInv : Inv s) (h : handleSystemThemeChange s m = .ok s') : Inv s' := by
  have h2 : (match applyDefaultTheme
        { s with systemTheme := if m then SysTheme.light else .dark } with
      | .error e => (Except.error e : Except TMError TMState)
      | .ok s2 => .ok (emitEvent s2
          (.systemThemeChange (if m then SysTheme.light else .dark)))) = .ok s' := h
  cases ha : applyDefaultTheme { s with systemTheme := if m then .light else .dark } with
  | error e => rw [ha] at h2; simp at h2
  | ok s2 =>
    rw [ha] at h2
    simp only [Except.ok.injEq] at h2
    subst h2
    have hInv1 : Inv { s with systemTheme := if m then SysTheme.light else .dark } :=
      fun hd => hInv hd
    have hres : Inv s2 := applyDefaultTheme_inv hInv1 ha
    exact hres

theorem initialState_inv (opts : TMOptions) (lm : Bool) : Inv (initialState opts lm) :=
  fun _ => ⟨rfl, rfl, rfl, List.nodup_nil⟩

theorem mkThemeManager_eq (opts : TMOptions) (lm : Bool) :
    mkThemeManager opts lm = .ok (initialState opts lm) := by
  show runThemeCall (11 + 1) (.callApplyDefaultTheme (initialState opts lm)) = _
  cases hdis : opts.disableFollowSystemTheme with
  | true => simp [runThemeCall, initialState, hdis]
  | false =>
    cases lm <;>
      simp [runThemeCall, initialState, hdis, getCurrentTheme, getThemeData,
        jsFalsyStr, sysThemeName, List.lookup]

end ThemeMgr

namespace ThemeMgr

/-! ## applyOp: invariant preservation and destroyed-state behaviour -/

theorem exceptMap_ok {A B : Type} (f : A → B) (a : A) :
    (Except.map f (Except.ok a) : Except TMError B) = .ok (f a) := rfl

theorem exceptMap_error {A B : Type} (f : A → B) (e : TMError) :
    (Except.map f (Except.error e) : Except TMError B) = .error e := rfl

theorem getThemeData_not_error {s : TMState} (n : Option String)
    (hD : s.isDestroyed = false) : ∃ v, getThemeData s n = .ok v := by
  unfold getThemeData
  simp only [hD, Bool.false_eq_true, if_false]
  split
  · exact ⟨_, rfl⟩
  · split
    · exact ⟨_, rfl⟩
    · split <;> exact ⟨_, rfl⟩

theorem applyOp_inv (s : TMState) (op : Op) (s' : TMState)
    (hInv : Inv s) (h : applyOp s op = .ok s') : Inv s' := by
  cases op with
  | register n d => exact register_inv hInv h
  | registerBatch l => exact registerBatch_inv hInv h
  | unregister n => exact unregister_inv hInv h
  | toggle n => exact toggle_inv hInv h
  | getCurrentTheme =>
    simp only [applyOp] at h
    cases hD : s.isDestroyed with
    | true => simp [getCurrentTheme, hD, exceptMap_error] at h
    | false =>
      simp only [getCurrentTheme, hD, Bool.false_eq_true, if_false,
        exceptMap_ok, Except.ok.injEq] at h
      subst h; exact hInv
  | getThemeData n =>
    simp only [applyOp] at h
    cases hD : s.isDestroyed with
    | true => simp [getThemeData, hD, exceptMap_error] at h
    | false =>
      obtain ⟨v, hv⟩ := getThemeData_not_error n hD
      rw [hv] at h
      simp only [exceptMap_ok, Except.ok.injEq] at h
      subst h; exact hInv
  | getAllThemes =>
    simp only [applyOp] at h
    cases hD : s.isDestroyed with
    | true => simp [getAllThemes, hD, exceptMap_error] at h
    | false =>
      simp only [getAllThemes, hD, Bool.false_eq_true, if_false,
        exceptMap_ok, Except.ok.injEq] at h
      subst h; exact hInv
  | hasTheme n =>
    simp only [applyOp] at h
    cases hD : s.isDestroyed with
    | true => simp [hasTheme, hD, exceptMap_error] at h
    | false =>
      simp only [hasTheme, hD, Bool.false_eq_true, if_false,
        exceptMap_ok, Except.ok.injEq] at h
      subst h; exact hInv
  | getThemeNames =>
    simp only [applyOp] at h
    cases hD : s.isDestroyed with
    | true => simp [getThemeNames, hD, exceptMap_error] at h
    | false =>
      simp only [getThemeNames, hD, Bool.false_eq_true, if_false,
        exceptMap_ok, Except.ok.injEq] at h
      subst h; exact hInv
  | cloneTheme src tgt ov => exact cloneTheme_inv hInv h
  | onEvent e l =>
    simp only [applyOp, onEvent] at h
    cases hD : s.isDestroyed with
    | true => simp [hD] at h
    | false =>
      simp only [hD, Bool.false_eq_true, if_false, Except.ok.injEq] at h
      subst h
      exact fun _ => hInv hD
  | offEvent e l =>
    simp only [applyOp, offEvent] at h
    cases hD : s.isDestroyed with
    | true => simp [hD] at h
    | false =>
      simp only [hD, Bool.false_eq_true, if_false] at h
      cases hl : s.listeners.lookup e with
      | none =>
        rw [hl] at h
        simp only [Except.ok.injEq] at h
        subst h; exact hInv
      | some cur =>
        rw [hl] at h
        simp only [Except.ok.injEq] at h
        subst h
        exact fun _ => hInv hD
  | clearListeners e =>
    simp only [applyOp, clearListeners] at h
    cases hD : s.isDestroyed with
    | true => simp [hD] at h
    | false =>
      simp only [hD, Bool.false_eq_true, if_false] at h
      cases e with
      | none =>
        simp only [Except.ok.injEq] at h
        subst h
        exact fun _ => hInv hD
      | some ev =>
        simp only [Except.ok.injEq] at h
        subst h
        exact fun _ => hInv hD
  | updateBaseVariables p => exact updateBaseVariables_inv hInv h
  | getStatus =>
    simp only [applyOp, getStatus, exceptMap_ok, Except.ok.injEq] at h
    subst h; exact hInv
  | destroy =>
    simp only [applyOp, Except.ok.injEq] at h
    subst h
    exact destroy_inv s hInv
  | systemThemeChange m => exact handleSystemThemeChange_inv hInv h

theorem destroy_isDestroyed (s : TMState) : (destroy s).isDestroyed = true := by
  unfold destroy
  cases hD : s.isDestroyed with
  | true => simpa using hD
  | false => simp

theorem destroy_idem (s : TMState) : destroy (destroy s) = destroy s := by
  cases hD : s.isDestroyed with
  | true =>
    have h1 : destroy s = s := by unfold destroy; simp [hD]
    rw [h1]
    exact h1
  | false =>
    have h1 : destroy s = { s with themeMap := [], attr := none, listeners := [], isDestroyed := true } := by
      unfold destroy; simp [hD]
    rw [h1]
    unfold destroy
    simp

theorem applyOp_destroyed (s : TMState) (op : Op)
    (hD : s.isDestroyed = true) (hop : opChecksDestroyed op = true) :
    applyOp s op = .error .destroyed := by
  cases op with
  | register n d =>
    show runThemeCall (11 + 1) (.callRegister s n d) = _
    simp [runThemeCall, hD]
  | registerBatch l => simp [applyOp, registerBatch, hD]
  | unregister n => simp [applyOp, unregister, hD]
  | toggle n => simp [applyOp, toggle, hD]
  | getCurrentTheme => simp [applyOp, getCurrentTheme, hD, exceptMap_error]
  | getThemeData n => simp [applyOp, getThemeData, hD, exceptMap_error]
  | getAllThemes => simp [applyOp, getAllThemes, hD, exceptMap_error]
  | hasTheme n => simp [applyOp, hasTheme, hD, exceptMap_error]
  | getThemeNames => simp [applyOp, getThemeNames, hD, exceptMap_error]
  | cloneTheme src tgt ov => simp [applyOp, cloneTheme, hD]
  | onEvent e l => simp [applyOp, onEvent, hD]
  | offEvent e l => simp [applyOp, offEvent, hD]
  | clearListeners e => simp [applyOp, clearListeners, hD]
  | updateBaseVariables p => simp [applyOp, updateBaseVariables, hD]
  | getStatus => simp [opChecksDestroyed] at hop
  | destroy => simp [opChecksDestroyed] at hop
  | systemThemeChange m => simp [opChecksDestroyed] at hop

end ThemeMgr

namespace ThemeMgr

/-! ## Eliminating a successful register call -/

theorem register_ok_elim {s : TMState} {n : String} {d : ThemeVariables}
    {s' : TMState} (hInv : Inv s) (hOk : register s n d = .ok s') :
    ∃ s1, PreState s n s1 ∧ s' = registerCore s1 n d ∧
      s.isDestroyed = false ∧ isValidThemeName n = true ∧
      isValidThemeData d = true := by
  have hOk2 : runThemeCall (11 + 1) (.callRegister s n d) = .ok s' := hOk
  cases hD : s.isDestroyed with
  | true => simp [runThemeCall, hD] at hOk2
  | false =>
    cases hvn : isValidThemeName n with
    | false => simp [runThemeCall, hD, hvn] at hOk2
    | true =>
      cases hvd : isValidThemeData d with
      | false => simp [runThemeCall, hD, hvn, hvd] at hOk2
      | true =>
        obtain ⟨hSheet, hAl, hAttr, hnd⟩ := hInv hD
        obtain ⟨s1, hp, hrun⟩ :=
          runRegister_ok_spec 11 hD hSheet hAl hAttr hnd hvn hvd
        rw [hrun] at hOk2
        simp only [Except.ok.injEq] at hOk2
        exact ⟨s1, hp, hOk2.symm, rfl, rfl, rfl⟩

theorem lookup_singleton_self {β : Type} (n : String) (c : β) :
    ([(n, c)] : List (String × β)).lookup n = some c := by
  simp [List.lookup_cons]

theorem registerCore_lookup_self {s1 : TMState} {n : String} {d : ThemeVariables}
    (hHas : mapHas s1.themeMap n = false) :
    (registerCore s1 n d).themeMap.lookup n = some ⟨s1.styleSheet.length, d⟩ := by
  rw [registerCore_fields s1 n d hHas]
  show (s1.themeMap ++
    [(n, (⟨s1.styleSheet.length, d⟩ : TMThemeConfig))]).lookup n = _
  rw [lookup_append_none _ (mapHas_false_lookup_none hHas),
    lookup_singleton_self]

end ThemeMgr

namespace ThemeMgr

theorem getThemeData_lookup {s : TMState} {n : String} {c : TMThemeConfig}
    (hD : s.isDestroyed = false) (hne : ¬(n = ""))
    (hl : s.themeMap.lookup n = some c) :
    getThemeData s (some n) = .ok (some (mergeVars s.baseVariables c.data)) := by
  unfold getThemeData
  simp [hD, hne, hl]

/-! ## The claims -/

/-- Claim C1 (registration round-trip): on an invariant-satisfying (hence
non-destroyed at call time) ThemeManager, immediately after a successful
`register(name, data)` call, `getThemeData(name)` returns exactly the
shallow merge `{...baseVariables, ...data}` (theme keys overriding base
keys, which is what `mergeVars` implements). -/
theorem c1_registration_roundtrip {s : TMState} {n : String} {d : ThemeVariables}
    {s' : TMState} (hInv : Inv s) (hOk : register s n d = .ok s') :
    getThemeData s' (some n) = .ok (some (mergeVars s.baseVariables d)) := by
  obtain ⟨s1, hp, he, _, hvn, _⟩ := register_ok_elim hInv hOk
  subst he
  have hdd : (registerCore s1 n d).isDestroyed = false := by
    rw [registerCore_fields s1 n d hp.hasN]
    exact hp.destroyed
  have hb : (registerCore s1 n d).baseVariables = s.baseVariables := by
    rw [registerCore_fields s1 n d hp.hasN]
    exact hp.base
  rw [getThemeData_lookup hdd (validName_ne_empty hvn)
    (registerCore_lookup_self hp.hasN)]
  rw [hb]

/-- Witness for C1 at a concrete input: base `--font: sans`, theme
`light = {--bg: #fff}`. -/
theorem c1_registration_roundtrip_witness :
    getThemeData c1After (some "light") =
      .ok (some (mergeVars [("--font", JSValue.str "sans")]
        [("--bg", JSValue.str "#fff")])) :=
  c1_registration_roundtrip
    (initialState_inv ⟨[("--font", JSValue.str "sans")], true⟩ true)
    (by decide)

/-- Claim C2 (replace semantics): registering the same name twice leaves
exactly one registry entry for that name, holding the second call's data,
and the compiled rule count equals the count right after the first
registration. -/
theorem c2_replace_semantics {s : TMState} {n : String} {d1 d2 : ThemeVariables}
    {s1 s2 : TMState} (hInv : Inv s)
    (h1 : register s n d1 = .ok s1) (h2 : register s1 n d2 = .ok s2) :
    (s2.themeMap.map Prod.fst).count n = 1 ∧
    (s2.themeMap.lookup n).map TMThemeConfig.data = some d2 ∧
    s2.styleSheet.length = s1.styleSheet.length := by
  obtain ⟨t1, hp1, he1, _, _, _⟩ := register_ok_elim hInv h1
  have hInv1 : Inv s1 := register_inv hInv h1
  obtain ⟨t2, hp2, he2, _, _, _⟩ := register_ok_elim hInv1 h2
  subst he1
  subst he2
  have hHas1 : mapHas (registerCore t1 n d1).themeMap n = true := by
    unfold mapHas
    rw [registerCore_lookup_self hp1.hasN]
    rfl
  refine ⟨?_, ?_, ?_⟩
  · rw [registerCore_fields t2 n d2 hp2.hasN]
    show ((t2.themeMap ++
      [(n, (⟨t2.styleSheet.length, d2⟩ : TMThemeConfig))]).map Prod.fst).count n = 1
    rw [List.map_append, List.count_append]
    have hz : (t2.themeMap.map Prod.fst).count n = 0 :=
      List.count_eq_zero.mpr (not_mem_keys_of_mapHas_false hp2.hasN)
    simp [hz]
  · rw [registerCore_lookup_self hp2.hasN]
    rfl
  · rw [registerCore_fields t2 n d2 hp2.hasN,
      registerCore_fields t1 n d1 hp1.hasN]
    show (t2.styleSheet ++ _).length = (t1.styleSheet ++ _).length
    have hl2 : t2.styleSheet.length = t2.themeMap.length := by
      rw [hp2.sheet, length_ruleListFor]
    have hl1 : t1.styleSheet.length = t1.themeMap.length := by
      rw [hp1.sheet, length_ruleListFor]
    have hlen2 := hp2.len
    rw [hHas1] at hlen2
    simp only [if_true] at hlen2
    have hmap1 : (registerCore t1 n d1).themeMap.length =
        t1.themeMap.length + 1 := by
      rw [registerCore_fields t1 n d1 hp1.hasN]
      show (t1.themeMap ++ _).length = _
      simp
    simp only [List.length_append, List.length_cons, List.length_nil]
    omega

/-- Witness for C2 at a concrete input: `register('a', {--p: 1})` then
`register('a', {--p: 3})`. -/
theorem c2_replace_semantics_witness :
    (c2After.themeMap.map Prod.fst).count "a" = 1 ∧
    (c2After.themeMap.lookup "a").map TMThemeConfig.data =
      some [("--p", JSValue.str "3")] ∧
    c2After.styleSheet.length = c2Mid.styleSheet.length :=
  c2_replace_semantics (initialState_inv ⟨[], true⟩ true)
    (show register c2Start "a" [("--p", JSValue.str "1")] = .ok c2Mid by decide)
    (show register c2Mid "a" [("--p", JSValue.str "3")] = .ok c2After by decide)

/-- Claim C5 (unregister of the active theme clears state): when the
unregistered name is the currently active theme, afterwards
`getCurrentTheme()` is `null` and a `themeChange(null, null)` event is
emitted (right after the `themeUnregister` event). -/
theorem c5_unregister_active_clears {s : TMState} {n : String}
    (hInv : Inv s) (hD : s.isDestroyed = false) (hA : s.attr = some n) :
    ∃ s', unregister s n = .ok s' ∧ getCurrentTheme s' = .ok none ∧
      s'.events = s.events ++
        [TMEvent.themeUnregister n, TMEvent.themeChange none none] := by
  obtain ⟨hSheet, hAl, hAttr, hnd⟩ := hInv hD
  have hHas : mapHas s.themeMap n = true := by
    unfold attrRegistered at hAttr
    simp only [hA] at hAttr
    exact hAttr
  obtain ⟨c, hc⟩ := Option.isSome_iff_exists.mp hHas
  refine ⟨_, unregister_found_active hD hSheet hAl hnd hc hA, ?_, rfl⟩
  show getCurrentTheme _ = .ok none
  unfold getCurrentTheme
  simp [hD]

/-- Witness for C5 at a concrete input: theme `a` registered and active,
then unregistered. -/
theorem c5_unregister_active_clears_witness :
    ∃ s', unregister c5Active "a" = .ok s' ∧ getCurrentTheme s' = .ok none ∧
      s'.events = c5Active.events ++
        [TMEvent.themeUnregister "a", TMEvent.themeChange none none] :=
  c5_unregister_active_clears (by decide) (by decide) (by decide)

end ThemeMgr

namespace ThemeMgr

/-- Claim C3, counterexample: `updateBaseVariables({'--x':'1'})` does NOT
give every registered theme a `--x` of `'1'` — a theme whose own data
defines `--x` keeps its own value, because theme keys override base keys
in the merge.  Concretely: `register('dark', {'--x':'2'})`, then
`updateBaseVariables({'--x':'1'})`; `getThemeData('dark')` maps `--x` to
`'2'`, not `'1'`. -/
theorem c3_counterexample :
    updateBaseVariables c3Mid [("--x", JSValue.str "1")] = .ok c3After ∧
    themeVarLookup (getThemeData c3After (some "dark")) "--x" =
      some (JSValue.str "2") ∧
    ¬(themeVarLookup (getThemeData c3After (some "dark")) "--x" =
      some (JSValue.str "1")) := by
  refine ⟨by decide, by decide, by decide⟩

/-- Claim C3 as amended (base-variable propagation): after
`updateBaseVariables(patch)` on a live manager, every already-registered
theme's `getThemeData` result maps every key of `patch` to the patch's
value, unless the theme's own stored data defines that key, in which case
the theme's own value wins — all without re-registration. -/
theorem c3_base_variable_propagation (s : TMState) (patch : ThemeVariables)
    (s' : TMState) (n : String) (c : TMThemeConfig) (k : String) (v : JSValue)
    (hInv : Inv s) (hD : s.isDestroyed = false)
    (hU : updateBaseVariables s patch = .ok s')
    (hL : s.themeMap.lookup n = some c) (hn : ¬(n = ""))
    (hk : patch.lookup k = some v) :
    ∃ d, getThemeData s' (some n) = .ok (some d) ∧
      d.lookup k = some ((c.data.lookup k).getD v) := by
  obtain ⟨_, _, _, hnd⟩ := hInv hD
  unfold updateBaseVariables at hU
  simp only [hD, Bool.false_eq_true, if_false, Except.ok.injEq] at hU
  have hrb := rebuildRuleIndexes_spec
    { s with baseVariables := mergeVars s.baseVariables patch,
             isDestroyed := false }
    (by simpa using hnd)
  rw [hrb] at hU
  subst hU
  have hdata := lookup_reindexFrom_data 0 s.themeMap n
  rw [hL] at hdata
  obtain ⟨c2, hc2, hc2d⟩ : ∃ c2,
      (reindexFrom 0 s.themeMap).lookup n = some c2 ∧ c2.data = c.data := by
    cases hx : (reindexFrom 0 s.themeMap).lookup n with
    | none => rw [hx] at hdata; simp at hdata
    | some c2 =>
      rw [hx] at hdata
      exact ⟨c2, rfl, by simpa using hdata⟩
  have hbase : (mergeVars s.baseVariables patch).lookup k = some v := by
    cases hb : s.baseVariables.lookup k with
    | none => rw [mergeVars_lookup_none hb]; exact hk
    | some u => rw [mergeVars_lookup_some hb, hk]; rfl
  refine ⟨mergeVars (mergeVars s.baseVariables patch) c2.data, ?_, ?_⟩
  · exact getThemeData_lookup (by simp) hn hc2
  · rw [hc2d, mergeVars_lookup_some hbase]

/-- Witness for the amended C3: base patch `--x: 1`, theme `dark` whose own
data is `--x: 2`. -/
theorem c3_base_variable_propagation_witness :
    ∃ d, getThemeData c3After (some "dark") = .ok (some d) ∧
      d.lookup "--x" = some (([("--x", JSValue.str "2")].lookup "--x").getD
        (JSValue.str "1")) :=
  c3_base_variable_propagation c3Mid [("--x", JSValue.str "1")] c3After "dark"
    ⟨0, [("--x", JSValue.str "2")]⟩ "--x" (JSValue.str "1")
    (by decide) (by decide) (by decide) (by decide) (by decide) (by decide)

/-- Claim C6 (registry/style-sheet consistency): the class invariant — the
owned sheet holds exactly one compiled rule per registered theme, each
record's `ruleIndex` is the position of that theme's own rule, and the two
stay consistent across insertions, removals and rebuilds — holds of a
freshly constructed manager and is preserved by every operation
(`applyOp` covers every public method plus the system-theme callback). -/
theorem c6_registry_stylesheet_consistency :
    (∀ (opts : TMOptions) (lm : Bool),
      mkThemeManager opts lm = .ok (initialState opts lm) ∧
        Inv (initialState opts lm)) ∧
    (∀ (s : TMState) (op : Op) (s' : TMState),
      Inv s → applyOp s op = .ok s' → Inv s') :=
  ⟨fun opts lm => ⟨mkThemeManager_eq opts lm, initialState_inv opts lm⟩,
   applyOp_inv⟩

/-- Claim C7, counterexample: `getStatus()` is a public method that does
not throw after `destroy()` — it returns a normal status snapshot, so
"every public call other than destroy throws DestroyedError" is false as
stated. -/
theorem c7_counterexample :
    getStatus (destroy c2Start) =
      .ok { isDestroyed := true, registeredThemes := 0, currentTheme := none,
            systemTheme := SysTheme.light, followSystemTheme := false,
            eventListeners := 0 } := by
  decide

/-- Claim C7 as amended (idempotent destroy, terminal destroyed state): a
second `destroy()` is a silent no-op; after the first `destroy()` every
public call other than `destroy` itself and `getStatus` fails with the
destroyed error, while `destroy` and `getStatus` return normally
(`getStatus` deliberately reads the destroyed flag instead of throwing). -/
theorem c7_destroy_idempotent_terminal :
    (∀ s : TMState, destroy (destroy s) = destroy s) ∧
    (∀ (s : TMState) (op : Op), opChecksDestroyed op = true →
      applyOp (destroy s) op = .error .destroyed) ∧
    (∀ s : TMState, applyOp (destroy s) Op.destroy = .ok (destroy s)) ∧
    (∀ s : TMState, applyOp (destroy s) Op.getStatus = .ok (destroy s)) := by
  refine ⟨destroy_idem, ?_, ?_, ?_⟩
  · intro s op hop
    exact applyOp_destroyed (destroy s) op (destroy_isDestroyed s) hop
  · intro s
    show Except.ok (destroy (destroy s)) = .ok (destroy s)
    rw [destroy_idem]
  · intro s
    rfl

end ThemeMgr

namespace ThemeMgr

/-- Claim C4, counterexample: with system following enabled and the system
theme `light`, registering a theme literally named `light` while no theme
is active does NOT activate the synthetic `default` theme in the current
ThemeManager — `register` only re-applies the default theme when
`getCurrentTheme() === themeName`, which is false here (no theme is
active), so `getCurrentTheme()` stays `null` and `getThemeData('default')`
stays `null`. -/
theorem c4_counterexample :
    register c4Start "light" [("--bg", JSValue.str "#fff")] = .ok c4Reg ∧
    getCurrentTheme c4Reg = .ok none ∧
    getThemeData c4Reg (some "default") = .ok none := by
  refine ⟨by decide, by decide, by decide⟩

/-- Claim C8 (listener failure isolation): the part_012 `emit` loop wraps
each listener call in its own try/catch, so every listener is invoked in
order whether or not earlier ones raised, raising listeners are logged,
and no exception reaches the emitter (`emitToListeners` is a total
function into `EmitTrace`); likewise the part_006 `afterToggle` hook call
site catches a raising hook and completes normally. -/
theorem c8_listener_failure_isolation :
    (∀ listeners : List TMListener,
      (emitToListeners listeners).invoked = listeners.map TMListener.id ∧
      (emitToListeners listeners).logged =
        (listeners.filter TMListener.throws).map TMListener.id) ∧
    (∀ hookThrows : Bool, afterToggleGuarded hookThrows = .ok ()) := by
  constructor
  · have hgo : ∀ (ls : List TMListener) (tr : EmitTrace),
        ls.foldl (fun tr l =>
          match invokeListener l with
          | .ok _ => { tr with invoked := tr.invoked ++ [l.id] }
          | .error _ => { invoked := tr.invoked ++ [l.id],
                          logged := tr.logged ++ [l.id] }) tr =
        { invoked := tr.invoked ++ ls.map TMListener.id,
          logged := tr.logged ++ (ls.filter TMListener.throws).map TMListener.id } := by
      intro ls
      induction ls with
      | nil => intro tr; simp
      | cons l rest ih =>
        intro tr
        rw [List.foldl_cons]
        cases ht : l.throws with
        | true =>
          rw [show invokeListener l = .error () from by simp [invokeListener, ht]]
          rw [ih]
          simp [List.filter_cons, ht]
        | false =>
          rw [show invokeListener l = .ok () from by simp [invokeListener, ht]]
          rw [ih]
          simp [List.filter_cons, ht]
    intro listeners
    unfold emitToListeners
    rw [hgo]
    simp
  · intro hookThrows
    cases hookThrows <;> rfl

/-- Claim C9 (concrete end-to-end scenario): construct with
`baseVariables: {'--font': 'sans'}`; register `light` and `dark`; toggle
to `dark`; then `getThemeData()` is `{'--font': 'sans', '--bg': '#000'}`,
and after a final bare `toggle()`, `getCurrentTheme()` is `null` — for
both possible OS system themes. -/
theorem c9_concrete_scenario :
    c9Data true = .ok (some [("--font", JSValue.str "sans"),
      ("--bg", JSValue.str "#000")]) ∧
    c9Data false = .ok (some [("--font", JSValue.str "sans"),
      ("--bg", JSValue.str "#000")]) ∧
    c9Final true = .ok none ∧
    c9Final false = .ok none := by
  refine ⟨by decide, by decide, by decide, by decide⟩

/-- Claim C10 (registerBatch refines sequential register): on a
non-destroyed manager, `registerBatch(themes)` produces exactly the same
`Except` result — hence the same final registry, style sheet, active
theme and emitted event trace, or the same thrown error after the same
prefix — as calling `register(name, data)` sequentially for each entry in
enumeration order (`registerSequentially`, written from the spec's
words). -/
theorem c10_registerBatch_refines_sequential (s : TMState)
    (themes : List (String × ThemeVariables)) (hD : s.isDestroyed = false) :
    registerBatch s themes = registerSequentially s themes := by
  unfold registerBatch registerSequentially
  simp [hD]

/-- Witness for C10 at a concrete input. -/
theorem c10_registerBatch_refines_sequential_witness :
    registerBatch c2Start [("a", [("--p", JSValue.str "1")]),
      ("b", [("--p", JSValue.str "2")])] =
    registerSequentially c2Start [("a", [("--p", JSValue.str "1")]),
      ("b", [("--p", JSValue.str "2")])] :=
  c10_registerBatch_refines_sequential c2Start
    [("a", [("--p", JSValue.str "1")]), ("b", [("--p", JSValue.str "2")])]
    (by decide)

end ThemeMgr

namespace ThemeMgr


theorem runThemeCall_applyDefault_eq (f : Nat) (s : TMState) :
    runThemeCall (f + 1) (.callApplyDefaultTheme s) =
      (if s.disableFollowSystemTheme then .ok s
       else
        match getCurrentTheme s with
        | .error e => .error e
        | .ok currentTheme =>
          if jsFalsyStr currentTheme || currentTheme = some "default" then
            match getThemeData s (some (sysThemeName s.systemTheme)) with
            | .error e => .error e
            | .ok none => .ok s
            | .ok (some systemThemeData) =>
              match unregister s "default" with
              | .error e => .error e
              | .ok s1 =>
                match runThemeCall f (.callRegister s1 "default" systemThemeData) with
                | .error e => .error e
                | .ok s2 => toggle s2 (some "default")
          else .ok s) := rfl

theorem applyDefault_activates {s : TMState} {c : TMThemeConfig}
    (hD : s.isDestroyed = false)
    (hSheet : s.styleSheet = ruleListFor s.baseVariables s.themeMap)
    (hAl : indicesAlignedFrom 0 s.themeMap = true)
    (hAttr : attrRegistered s = true)
    (hnd : (s.themeMap.map Prod.fst).Nodup)
    (hF : s.disableFollowSystemTheme = false)
    (hA : s.attr = none)
    (hL : s.themeMap.lookup (sysThemeName s.systemTheme) = some c)
    (hValid : isValidThemeData (mergeVars s.baseVariables c.data) = true) :
    ∃ s', applyDefaultTheme s = .ok s' ∧
      s'.attr = some "default" ∧
      s'.isDestroyed = false ∧
      s'.baseVariables = s.baseVariables ∧
      (s'.themeMap.lookup "default").map TMThemeConfig.data =
        some (mergeVars s.baseVariables c.data) := by
  obtain ⟨s1, hequ, hp⟩ := unregister_ok_props "default" hD hSheet hAl hAttr hnd
  have hvn : isValidThemeName "default" = true := by decide
  obtain ⟨s2, hp2, hrun⟩ :=
    @runRegister_ok_spec s1 "default" (mergeVars s.baseVariables c.data) 10
      hp.destroyed hp.sheet hp.aligned hp.attrReg hp.nodup hvn hValid
  have hrun11 : runThemeCall 11
      (.callRegister s1 "default" (mergeVars s.baseVariables c.data)) =
      .ok (registerCore s2 "default" (mergeVars s.baseVariables c.data)) := hrun
  have htogD : (registerCore s2 "default"
      (mergeVars s.baseVariables c.data)).isDestroyed = false := by
    rw [registerCore_fields _ _ _ hp2.hasN]
    exact hp2.destroyed
  have hlook : (registerCore s2 "default"
      (mergeVars s.baseVariables c.data)).themeMap.lookup "default" =
      some ⟨s2.styleSheet.length, mergeVars s.baseVariables c.data⟩ :=
    registerCore_lookup_self hp2.hasN
  have htog := toggle_some_ok htogD hvn hlook
  have hgtd : getThemeData s (some (sysThemeName s.systemTheme)) =
      .ok (some (mergeVars s.baseVariables c.data)) :=
    getThemeData_lookup hD (sysThemeName_ne_empty _) hL
  refine ⟨emitEvent
      { registerCore s2 "default" (mergeVars s.baseVariables c.data) with
        attr := some "default" }
      (TMEvent.themeChange (some "default")
        (some (mergeVars
          (registerCore s2 "default"
            (mergeVars s.baseVariables c.data)).baseVariables
          ((⟨s2.styleSheet.length,
            mergeVars s.baseVariables c.data⟩ : TMThemeConfig)).data))),
    ?_, rfl, htogD, ?_, ?_⟩
  · show runThemeCall (11 + 1) (.callApplyDefaultTheme s) = _
    rw [runThemeCall_applyDefault_eq]
    simp only [hF, Bool.false_eq_true, if_false,
      getCurrentTheme, hD, hA, jsFalsyStr, Bool.true_or, if_true,
      hgtd, hequ, hrun11, htog]
  · show (registerCore s2 "default"
      (mergeVars s.baseVariables c.data)).baseVariables = _
    rw [registerCore_fields _ _ _ hp2.hasN]
    show s2.baseVariables = s.baseVariables
    rw [hp2.base, hp.base]
  · show ((registerCore s2 "default"
      (mergeVars s.baseVariables c.data)).themeMap.lookup "default").map
        TMThemeConfig.data = _
    rw [hlook]
    rfl

end ThemeMgr

namespace ThemeMgr

/-- Claim C4 as amended (system-follow convention): in the current
ThemeManager, registering a theme named after the system theme does not by
itself activate anything (see the counterexample); the synthetic `default`
alias is applied when `applyDefaultTheme` runs — i.e. on the next system
theme change event (the constructor's call cannot fire, the registry is
still empty then).  When that event fires on a live, invariant-satisfying
manager with no active theme, following enabled, and a theme registered
under the (new) system theme's name, the result is
`getCurrentTheme() === 'default'` and `getThemeData('default')` equal to
that theme's merged (base plus theme) data. -/
theorem c4_system_follow_convention (s : TMState) (m : Bool) (c : TMThemeConfig)
    (hInv : Inv s) (hD : s.isDestroyed = false)
    (hF : s.disableFollowSystemTheme = false) (hA : s.attr = none)
    (hBase : (s.baseVariables.map Prod.fst).Nodup)
    (hL : s.themeMap.lookup
      (sysThemeName (if m then SysTheme.light else SysTheme.dark)) = some c)
    (hValid : isValidThemeData (mergeVars s.baseVariables c.data) = true) :
    ∃ s', handleSystemThemeChange s m = .ok s' ∧
      getCurrentTheme s' = .ok (some "default") ∧
      getThemeData s' (some "default") =
        .ok (some (mergeVars s.baseVariables c.data)) := by
  obtain ⟨hSheet, hAl, hAttr, hnd⟩ := hInv hD
  obtain ⟨sT, hadt, hattr, hdd, hbase, hlook⟩ :=
    @applyDefault_activates
      { s with systemTheme := if m then SysTheme.light else SysTheme.dark } c
      hD hSheet hAl hAttr hnd hF hA hL hValid
  refine ⟨emitEvent sT
    (.systemThemeChange (if m then SysTheme.light else SysTheme.dark)),
    ?_, ?_, ?_⟩
  · show (match applyDefaultTheme
        { s with systemTheme := if m then SysTheme.light else SysTheme.dark } with
      | .error e => (Except.error e : Except TMError TMState)
      | .ok s2 => .ok (emitEvent s2
          (.systemThemeChange (if m then SysTheme.light else SysTheme.dark)))) = _
    rw [hadt]
  · unfold getCurrentTheme
    have hdd2 : (emitEvent sT
        (.systemThemeChange (if m then SysTheme.light else SysTheme.dark))).isDestroyed =
        false := hdd
    have hattr2 : (emitEvent sT
        (.systemThemeChange (if m then SysTheme.light else SysTheme.dark))).attr =
        some "default" := hattr
    rw [hdd2, hattr2]
    rfl
  · obtain ⟨c2, hc2, hc2d⟩ : ∃ c2, sT.themeMap.lookup "default" = some c2 ∧
        c2.data = mergeVars s.baseVariables c.data := by
      cases hx : sT.themeMap.lookup "default" with
      | none => rw [hx] at hlook; simp at hlook
      | some c2 =>
        rw [hx] at hlook
        exact ⟨c2, rfl, by simpa using hlook⟩
    have hc2e : (emitEvent sT
        (.systemThemeChange (if m then SysTheme.light else SysTheme.dark))).themeMap.lookup
          "default" = some c2 := hc2
    have hddE : (emitEvent sT
        (.systemThemeChange (if m then SysTheme.light else SysTheme.dark))).isDestroyed =
        false := hdd
    rw [getThemeData_lookup hddE (by decide) hc2e]
    have hbase2 : (emitEvent sT
        (.systemThemeChange (if m then SysTheme.light else SysTheme.dark))).baseVariables =
        s.baseVariables := hbase
    rw [hbase2, hc2d, mergeVars_absorb hBase]

/-- Witness for the amended C4: the state of the counterexample (theme
`light` registered, nothing active) followed by a system theme change to
`light`. -/
theorem c4_system_follow_convention_witness :
    ∃ s', handleSystemThemeChange c4Reg true = .ok s' ∧
      getCurrentTheme s' = .ok (some "default") ∧
      getThemeData s' (some "default") =
        .ok (some (mergeVars c4Reg.baseVariables [("--bg", JSValue.str "#fff")])) :=
  c4_system_follow_convention c4Reg true ⟨0, [("--bg", JSValue.str "#fff")]⟩
    (by decide) (by decide) (by decide) (by decide) (by decide) (by decide)
    (by decide)

end ThemeMgr
